import Mathlib

/-! The SNS_IK facade of sns_ik.

A shallow embedding of `sns_ik_lib/src/sns_ik.cpp`: the two constructors of
`sns_ik::SNS_IK`, the private member function `initialize()` and the public
`CartToJnt`.

Modelling conventions.

* `double` values are rationals.  The file performs no floating-point
  arithmetic: doubles are only copied, compared, negated (`std::abs`) and
  selected (`std::min`, `std::max`), and all of these are exact on finite
  doubles.  NaN and the infinities are outside the model.
* `KDL::JntArray` is a list of values; `operator()` is an index access that is
  undefined outside the array, which the model renders as `none`.
* A null `shared_ptr` is `none`; dereferencing it is undefined and makes the
  operation return `none`.
* Sizes and counters are natural numbers.
* The solver classes `SNSVelocityIK` and `SNSPositionIK`, `KDL::Frame`,
  `KDL::Twist` and `sns_ik::SolveType` are declared elsewhere; they are the
  fields of `Ext`.  ROS, urdf and kdl_parser services used by the URDF
  constructor are the fields of `Ros`.
* Every object carries a ghost `trace`: the error reports it made and the
  calls it made to its solver collaborators, in order.  `ROS_DEBUG` and
  `ROS_INFO` output is not recorded.
* `initialize` is a reserved word of Lean, so the member function
  `SNS_IK::initialize()` is `SNS_IK.initialise` here; the two overloaded
  constructors are `SNS_IK.SNS_IK_urdf` and `SNS_IK.SNS_IK_chain`.
-/

namespace sns_ik

/-! ## Numbers -/

/-- The value of `std::numeric_limits<float>::max()`, `(2 - 2^-23) * 2^127`. -/
def FLT_MAX : ℚ := 340282346638528859811704183484516925440

/-- The value of `std::numeric_limits<float>::lowest()`. -/
def FLT_LOWEST : ℚ := -340282346638528859811704183484516925440

/-- The C++ `std::min(a, b)`: `(b < a) ? b : a`. -/
def std_min (a b : ℚ) : ℚ := if b < a then b else a

/-- The C++ `std::max(a, b)`: `(a < b) ? b : a`. -/
def std_max (a b : ℚ) : ℚ := if a < b then b else a

/-- The C++ `std::abs` on a double. -/
def std_abs (x : ℚ) : ℚ := if x < 0 then -x else x

/-- The test `s.find(pat) != std::string::npos`: `pat` occurs in `s`. -/
def find_ne_npos (s pat : String) : Bool := decide (pat.data <:+: s.data)

/-! ## KDL -/

namespace KDL

/-- The enumeration `KDL::Joint::JointType`. -/
inductive JointType
  | RotAxis | RotX | RotY | RotZ | TransAxis | TransX | TransY | TransZ | None
  deriving DecidableEq, Repr

/-- The part of `KDL::Joint` the facade looks at: name and type. -/
structure Joint where
  name : String
  type : JointType
  deriving DecidableEq, Repr

/-- The accessor `KDL::Joint::getName`. -/
def Joint.getName (j : Joint) : String := j.name

/-- The accessor `KDL::Joint::getTypeName`: the enumerator spelled out. -/
def Joint.getTypeName (j : Joint) : String :=
  match j.type with
  | JointType.RotAxis => "RotAxis"
  | JointType.RotX => "RotX"
  | JointType.RotY => "RotY"
  | JointType.RotZ => "RotZ"
  | JointType.TransAxis => "TransAxis"
  | JointType.TransX => "TransX"
  | JointType.TransY => "TransY"
  | JointType.TransZ => "TransZ"
  | JointType.None => "None"

/-- The part of `KDL::Segment` the facade looks at: its joint. -/
structure Segment where
  joint : Joint
  deriving DecidableEq, Repr

/-- The accessor `KDL::Segment::getJoint`. -/
def Segment.getJoint (s : Segment) : Joint := s.joint

/-- A `KDL::Chain`: its public member `segments`. -/
structure Chain where
  segments : List Segment
  deriving DecidableEq, Repr

/-- The test of `KDL::Chain::addSegment`: the joint of the segment is counted when
its type is not `None`. -/
def Segment.counted (s : Segment) : Bool := decide (s.getJoint.type ≠ JointType.None)

/-- The count `KDL::Chain::getNrOfJoints`: the segments `addSegment` counted. -/
def Chain.getNrOfJoints (c : Chain) : Nat := c.segments.countP Segment.counted

/-- The segments of a chain that carry a counted joint, in chain order: the
actuated joints of the chain. -/
def Chain.actuated (c : Chain) : List Segment := c.segments.filter Segment.counted

/-- The axis kind is rotational: the joint type is one of the four rotations. -/
def JointType.isRotational : JointType → Bool
  | RotAxis | RotX | RotY | RotZ => true
  | _ => false

/-- The axis kind is translational: the joint type is one of the four
translations. -/
def JointType.isTranslational : JointType → Bool
  | TransAxis | TransX | TransY | TransZ => true
  | _ => false

/-- A `KDL::Tree` as the facade uses it: `getChain(root, tip, chain)` gives a
success flag and the chain it leaves in its output argument. -/
structure Tree where
  getChain : String → String → Bool × Chain

/-- A `KDL::JntArray`: its public member `data`. -/
structure JntArray where
  data : List ℚ
  deriving DecidableEq, Repr

/-- Reading `a(i)`; `none` outside the array. -/
def JntArray.read (a : JntArray) (i : Nat) : Option ℚ := a.data[i]?

/-- Writing `a(i) = v`; `none` outside the array. -/
def JntArray.write (a : JntArray) (i : Nat) (v : ℚ) : Option JntArray :=
  if i < a.data.length then some ⟨a.data.set i v⟩ else none

/-- The resizing `KDL::JntArray::resize(n)` of an empty array: `n` zeros. -/
def JntArray.resize (n : Nat) : JntArray := ⟨List.replicate n 0⟩

end KDL

/-! ## urdf -/

namespace urdf

/-- The joint type enumeration of `urdf::Joint`. -/
inductive JointType
  | UNKNOWN | REVOLUTE | CONTINUOUS | PRISMATIC | FLOATING | PLANAR | FIXED
  deriving DecidableEq, Repr

/-- The record `urdf::JointLimits`. -/
structure JointLimits where
  lower : ℚ
  upper : ℚ
  effort : ℚ
  velocity : ℚ
  deriving DecidableEq, Repr

/-- The record `urdf::JointSafety`. -/
structure JointSafety where
  soft_upper_limit : ℚ
  soft_lower_limit : ℚ
  k_position : ℚ
  k_velocity : ℚ
  deriving DecidableEq, Repr

/-- The part of `urdf::Joint` the facade looks at; `limits` and `safety` are
shared pointers that may be null. -/
structure Joint where
  name : String
  type : JointType
  limits : Option JointLimits
  safety : Option JointSafety
  deriving DecidableEq, Repr

/-- A `urdf::Model` as the facade uses it: `getJoint(name)`, null when there is no
such joint. -/
structure Model where
  getJoint : String → Option Joint

end urdf

/-! ## External declarations -/

/-- Types and operations declared outside `sns_ik.cpp` that the facade stores or
calls: pose and tolerance types, the solve-type selector, and the two solver
classes with the constructors and member functions used here.  The position
solver receives `q_out` by pointer, so its `CartToJnt` sees the caller's array
and returns the array it leaves there, next to its return code and its own next
state. -/
structure Ext where
  Frame : Type
  Twist : Type
  SolveType : Type
  SNSVelocityIK : Type
  SNSPositionIK : Type
  newSNSVelocityIK : Nat → ℚ → SNSVelocityIK
  setJointsCapabilities : SNSVelocityIK → List ℚ → List ℚ → List ℚ → List ℚ → SNSVelocityIK
  newSNSPositionIK : KDL.Chain → SNSVelocityIK → SNSPositionIK
  posCartToJnt : SNSPositionIK → KDL.JntArray → Frame → KDL.JntArray → Twist →
    Int × KDL.JntArray × SNSPositionIK

/-- The services the URDF constructor asks of ROS, urdf and kdl_parser:
`NodeHandle::param` and `getParam` on strings, `searchParam`, `getParam` on a
double, `urdf::Model::initString` and `kdl_parser::treeFromUrdfModel`. -/
structure Ros where
  param : String → String → String
  searchParam : String → Option String
  getParamString : String → Option String
  getParamDouble : String → Option ℚ
  initString : String → urdf.Model
  treeFromUrdfModel : urdf.Model → Option KDL.Tree

/-! ## The facade -/

/-- The enumeration `SNS_IK::JointType`. -/
inductive JointType
  | Revolute | Prismatic | Continuous
  deriving DecidableEq, Repr

/-- Ghost events: error reports and collaborator calls. -/
inductive Event
  | ROS_FATAL (msg : String)
  | ROS_ERROR (msg : String)
  | ROS_ASSERT_failed (msg : String)
  | new_SNSVelocityIK (n : Nat)
  | setJointsCapabilities
  | new_SNSPositionIK
  | pos_CartToJnt
  deriving DecidableEq, Repr

/-- The data members of `sns_ik::SNS_IK`, and the ghost trace. -/
structure SNS_IK (X : Ext) where
  m_initialized : Bool
  m_eps : ℚ
  m_maxtime : ℚ
  m_solvetype : X.SolveType
  m_chain : KDL.Chain
  m_lower_bounds : KDL.JntArray
  m_upper_bounds : KDL.JntArray
  m_velocity : KDL.JntArray
  m_acceleration : KDL.JntArray
  m_types : List JointType
  m_ik_vel_solver : Option X.SNSVelocityIK
  m_ik_pos_solver : Option X.SNSPositionIK
  trace : List Event

/-- What a call of `CartToJnt` leaves behind: the return code, `q_out`, and the
object. -/
structure CartToJntResult (X : Ext) where
  ret : Int
  q_out : KDL.JntArray
  self : SNS_IK X

/-- The member function `SNS_IK::CartToJnt` (lines 170-177). -/
def SNS_IK.CartToJnt {X : Ext} (s : SNS_IK X) (q_init : KDL.JntArray) (p_in : X.Frame)
    (q_out : KDL.JntArray) (tolerances : X.Twist) : Option (CartToJntResult X) :=
  if !s.m_initialized then
    some ⟨-1, q_out, { s with trace := s.trace ++
      [Event.ROS_ERROR "SNS_IK was not properly initialized with a valid chain or limits."] }⟩
  else
    match s.m_ik_pos_solver with
    | none => none
    | some solver =>
      let r := X.posCartToJnt solver q_init p_in q_out tolerances
      some ⟨r.1, r.2.1, { s with m_ik_pos_solver := some r.2.2,
                                 trace := s.trace ++ [Event.pos_CartToJnt] }⟩

/-- Modelled from the spec: the macro `ROS_ASSERT_MSG` of `ros/assert.h`, which is
not among the sources.  Spec 4.4: on any length mismatch the initializer "reports
a configuration error and does not construct the solver collaborators; readiness
remains false".  A check that fails reports its message and ends `initialize()`
there, every member as it is; a check that holds lets the rest `k` run. -/
def ROS_ASSERT_MSG {X : Ext} (cond : Bool) (msg : String) (s : SNS_IK X)
    (k : SNS_IK X → Option (SNS_IK X)) : Option (SNS_IK X) :=
  if cond then k s
  else some { s with trace := s.trace ++ [Event.ROS_ASSERT_failed msg] }

/-- One pass of the loop body of `initialize()` (lines 149-159) on one segment:
the new value of `m_types`. -/
def pushType (m_lower_bounds m_upper_bounds : KDL.JntArray) (m_types : List JointType)
    (seg : KDL.Segment) : Option (List JointType) :=
  let type := seg.getJoint.getTypeName
  if find_ne_npos type "Rot" then
    match m_upper_bounds.read m_types.length with
    | none => none
    | some ub =>
      if ub ≥ FLT_MAX then
        match m_lower_bounds.read m_types.length with
        | none => none
        | some lb =>
          if lb ≤ FLT_LOWEST then some (m_types ++ [JointType.Continuous])
          else some (m_types ++ [JointType.Revolute])
      else some (m_types ++ [JointType.Revolute])
  else if find_ne_npos type "Trans" then some (m_types ++ [JointType.Prismatic])
  else some m_types

/-- The loop of `initialize()` (lines 148-160) over the segments still to visit. -/
def populateTypes (m_lower_bounds m_upper_bounds : KDL.JntArray) :
    List KDL.Segment → List JointType → Option (List JointType)
  | [], m_types => some m_types
  | seg :: rest, m_types =>
    match pushType m_lower_bounds m_upper_bounds m_types seg with
    | none => none
    | some m_types1 => populateTypes m_lower_bounds m_upper_bounds rest m_types1

/-- The member function `SNS_IK::initialize()` (lines 137-168).  The cast
`(unsigned int)m_lower_bounds.data.size()` of the last check is the identity: the
first check has made that size equal to `getNrOfJoints()`, an `unsigned int`. -/
def SNS_IK.initialise {X : Ext} (s : SNS_IK X) : Option (SNS_IK X) :=
  ROS_ASSERT_MSG (s.m_chain.getNrOfJoints == s.m_lower_bounds.data.length)
    "SNS_IK: Number of joint lower bounds does not equal number of joints" s fun s =>
  ROS_ASSERT_MSG (s.m_chain.getNrOfJoints == s.m_upper_bounds.data.length)
    "SNS_IK: Number of joint upper bounds does not equal number of joints" s fun s =>
  ROS_ASSERT_MSG (s.m_chain.getNrOfJoints == s.m_velocity.data.length)
    "SNS_IK: Number of max joint velocity bounds does not equal number of joints" s fun s =>
  ROS_ASSERT_MSG (s.m_chain.getNrOfJoints == s.m_acceleration.data.length)
    "SNS_IK: Number of max joint acceleration bounds does not equal number of joints" s fun s =>
  match populateTypes s.m_lower_bounds s.m_upper_bounds s.m_chain.segments s.m_types with
  | none => none
  | some m_types =>
    ROS_ASSERT_MSG (m_types.length == s.m_lower_bounds.data.length)
      "SNS_IK: Could not determine joint limits for all non-continuous joints"
      { s with m_types := m_types } fun s =>
    let vel := X.newSNSVelocityIK s.m_chain.getNrOfJoints (1 / 100)
    let vel := X.setJointsCapabilities vel s.m_lower_bounds.data s.m_upper_bounds.data
      s.m_velocity.data s.m_acceleration.data
    let pos := X.newSNSPositionIK s.m_chain vel
    some { s with
      m_ik_vel_solver := some vel
      m_ik_pos_solver := some pos
      m_initialized := true
      trace := s.trace ++ [Event.new_SNSVelocityIK s.m_chain.getNrOfJoints,
        Event.setJointsCapabilities, Event.new_SNSPositionIK] }

/-- The constructor `SNS_IK::SNS_IK(chain, q_min, q_max, v_max, a_max, maxtime,
eps, type)` (lines 120-135). -/
def SNS_IK.SNS_IK_chain {X : Ext} (chain : KDL.Chain) (q_min q_max v_max a_max : KDL.JntArray)
    (maxtime eps : ℚ) (type : X.SolveType) : Option (SNS_IK X) :=
  SNS_IK.initialise
    { m_initialized := false
      m_eps := eps
      m_maxtime := maxtime
      m_solvetype := type
      m_chain := chain
      m_lower_bounds := q_min
      m_upper_bounds := q_max
      m_velocity := v_max
      m_acceleration := a_max
      m_types := []
      m_ik_vel_solver := none
      m_ik_pos_solver := none
      trace := [] }

/-! ## The URDF constructor -/

/-- The four values the loop body of the URDF constructor computes for one
joint. -/
structure JointValues where
  lower : ℚ
  upper : ℚ
  velocity : ℚ
  acceleration : ℚ
  deriving DecidableEq, Repr

/-- Lines 70-87: the values taken from the model before the parameter server is
asked.  `none`: `joint->limits` is null where it is dereferenced. -/
def modelLimits (joint : urdf.Joint) : Option (ℚ × ℚ × ℚ) :=
  if joint.type = urdf.JointType.CONTINUOUS then
    some (FLT_LOWEST, FLT_MAX, 0)
  else
    match joint.limits with
    | none => none
    | some limits =>
      match joint.safety with
      | some safety =>
        some (std_max limits.lower safety.soft_lower_limit,
              std_min limits.upper safety.soft_upper_limit,
              std_abs limits.velocity)
      | none => some (limits.lower, limits.upper, std_abs limits.velocity)

/-- The key under which the limits of a joint are looked up (line 90), without
the last component. -/
def limitsKey (urdf_xml : String) (joint : urdf.Joint) : String :=
  urdf_xml ++ "_planning/joint_limits/" ++ joint.name ++ "/"

/-- Lines 88-108: the modifications read from the parameter server, and the
values that are stored. -/
def paramLimits (ros : Ros) (urdf_xml : String) (joint : urdf.Joint) (m : ℚ × ℚ × ℚ) :
    JointValues :=
  let lower := m.1
  let upper := m.2.1
  let velocity := m.2.2
  let acceleration : ℚ := 0
  let upper :=
    match ros.getParamDouble (limitsKey urdf_xml joint ++ "max_position") with
    | some ul => std_min upper ul
    | none => upper
  let lower :=
    match ros.getParamDouble (limitsKey urdf_xml joint ++ "min_position") with
    | some ll => std_max lower ll
    | none => lower
  let velocity :=
    match ros.getParamDouble (limitsKey urdf_xml joint ++ "max_velocity") with
    | some vel => std_min velocity (std_abs vel)
    | none => velocity
  let acceleration :=
    match ros.getParamDouble (limitsKey urdf_xml joint ++ "max_acceleration") with
    | some a => a
    | none => acceleration
  ⟨lower, upper, velocity, std_abs acceleration⟩

/-- Lines 70-108 for one joint that passed the type test of line 69. -/
def jointValues (ros : Ros) (urdf_xml : String) (joint : urdf.Joint) : Option JointValues :=
  match modelLimits joint with
  | none => none
  | some m => some (paramLimits ros urdf_xml joint m)

/-- The four arrays the URDF constructor fills. -/
structure Bounds where
  m_lower_bounds : KDL.JntArray
  m_upper_bounds : KDL.JntArray
  m_velocity : KDL.JntArray
  m_acceleration : KDL.JntArray
  deriving DecidableEq, Repr

/-- Lines 105-108: the four stores at index `joint_num`. -/
def Bounds.store (b : Bounds) (joint_num : Nat) (v : JointValues) : Option Bounds :=
  match b.m_lower_bounds.write joint_num v.lower with
  | none => none
  | some lo =>
    match b.m_upper_bounds.write joint_num v.upper with
    | none => none
    | some up =>
      match b.m_velocity.write joint_num v.velocity with
      | none => none
      | some ve =>
        match b.m_acceleration.write joint_num v.acceleration with
        | none => none
        | some ac => some ⟨lo, up, ve, ac⟩

/-- The loop of the URDF constructor (lines 67-115) over the segments still to
visit, from the current `joint_num` and arrays.  `none`: a null `joint` or
`joint->limits` is dereferenced, or a store falls outside its array. -/
def urdfLoop (ros : Ros) (robot_model : urdf.Model) (urdf_xml : String) :
    List KDL.Segment → Nat → Bounds → Option (Nat × Bounds)
  | [], joint_num, b => some (joint_num, b)
  | seg :: rest, joint_num, b =>
    match robot_model.getJoint seg.getJoint.getName with
    | none => none
    | some joint =>
      if joint.type ≠ urdf.JointType.UNKNOWN ∧ joint.type ≠ urdf.JointType.FIXED then
        match jointValues ros urdf_xml joint with
        | none => none
        | some v =>
          match b.store joint_num v with
          | none => none
          | some b1 => urdfLoop ros robot_model urdf_xml rest (joint_num + 1) b1
      else urdfLoop ros robot_model urdf_xml rest joint_num b

/-- The members as the initializer list of the URDF constructor leaves them
(lines 27-30), the others default-constructed. -/
def SNS_IK.blank {X : Ext} (maxtime eps : ℚ) (type : X.SolveType) : SNS_IK X :=
  { m_initialized := false
    m_eps := eps
    m_maxtime := maxtime
    m_solvetype := type
    m_chain := ⟨[]⟩
    m_lower_bounds := ⟨[]⟩
    m_upper_bounds := ⟨[]⟩
    m_velocity := ⟨[]⟩
    m_acceleration := ⟨[]⟩
    m_types := []
    m_ik_vel_solver := none
    m_ik_pos_solver := none
    trace := [] }

/-- Line 36: the name of the description parameter, `URDF_param` unless the
private parameter `urdf_param` names another. -/
def urdf_xml (ros : Ros) (URDF_param : String) : String := ros.param "urdf_param" URDF_param

/-- Line 37: the full name `searchParam` finds for it; empty when it finds none. -/
def full_urdf_xml (ros : Ros) (URDF_param : String) : String :=
  (ros.searchParam (urdf_xml ros URDF_param)).getD ""

/-- Lines 45-46: the model read from the description string. -/
def robot_model (ros : Ros) (URDF_param : String) : urdf.Model :=
  ros.initString (ros.param (full_urdf_xml ros URDF_param) "")

/-- The joints the loop of the URDF constructor takes past the type test of line
69, in chain order: the joints it resolves limits for. -/
def processedJoints (model : urdf.Model) (segs : List KDL.Segment) : List urdf.Joint :=
  segs.filterMap fun seg =>
    match model.getJoint seg.getJoint.getName with
    | none => none
    | some joint =>
      if joint.type ≠ urdf.JointType.UNKNOWN ∧ joint.type ≠ urdf.JointType.FIXED then some joint
      else none

/-- The constructor `SNS_IK::SNS_IK(base_link, tip_link, URDF_param, maxtime, eps,
type)` (lines 24-117). -/
def SNS_IK.SNS_IK_urdf {X : Ext} (ros : Ros) (base_link tip_link URDF_param : String)
    (maxtime eps : ℚ) (type : X.SolveType) : Option (SNS_IK X) :=
  let s : SNS_IK X := SNS_IK.blank maxtime eps type
  match ros.getParamString (full_urdf_xml ros URDF_param) with
  | none =>
    some { s with trace := s.trace ++
      [Event.ROS_FATAL "Could not load the xml from parameter server: %s"] }
  | some _ =>
    match ros.treeFromUrdfModel (robot_model ros URDF_param) with
    | none =>
      some { s with trace := s.trace ++
        [Event.ROS_FATAL "Failed to extract kdl tree from xml robot description."] }
    | some tree =>
      let found := tree.getChain base_link tip_link
      let s : SNS_IK X := { s with
        m_chain := found.2
        trace := if found.1 then s.trace
                 else s.trace ++ [Event.ROS_FATAL "Couldn't find chain %s to %s"] }
      let n := s.m_chain.getNrOfJoints
      let b : Bounds := ⟨KDL.JntArray.resize n, KDL.JntArray.resize n,
        KDL.JntArray.resize n, KDL.JntArray.resize n⟩
      match urdfLoop ros (robot_model ros URDF_param) (urdf_xml ros URDF_param)
          s.m_chain.segments 0 b with
      | none => none
      | some r =>
        SNS_IK.initialise { s with
          m_lower_bounds := r.2.m_lower_bounds
          m_upper_bounds := r.2.m_upper_bounds
          m_velocity := r.2.m_velocity
          m_acceleration := r.2.m_acceleration }

/-! ## Concrete inputs

Small instances on which the definitions are evaluated. -/

/-- An instance of the external declarations: poses and tolerances are numbers,
a solver's state is a counter, and the position solver answers with code `7`,
copies `q_init` to `q_out` and counts the call. -/
@[reducible]
def Ext.demo : Ext where
  Frame := ℚ
  Twist := ℚ
  SolveType := Unit
  SNSVelocityIK := Nat
  SNSPositionIK := Nat
  newSNSVelocityIK := fun n _ => n
  setJointsCapabilities := fun v _ _ _ _ => v
  newSNSPositionIK := fun _ v => v
  posCartToJnt := fun p q_init _ _ _ => (7, q_init, p + 1)

/-- An object the initializer list has just set up. -/
def demoBlank : SNS_IK Ext.demo := SNS_IK.blank 1 1 ()

/-- An object with a position solver, ready. -/
def demoReady : SNS_IK Ext.demo :=
  { demoBlank with
    m_initialized := true
    m_ik_vel_solver := some (0 : Nat)
    m_ik_pos_solver := some (0 : Nat) }

/-- A tree in which no chain joins the two links asked for: `getChain` fails and
leaves its output chain empty. -/
def treeNoChain : KDL.Tree := ⟨fun _ _ => (false, ⟨[]⟩)⟩

/-- A parameter server that holds a robot description under
`/robot_description`, whose model yields `treeNoChain`. -/
def rosNoChain : Ros where
  param := fun key dflt => if key = "/robot_description" then "<robot><link/></robot>" else dflt
  searchParam := fun name => some ("/" ++ name)
  getParamString := fun key =>
    if key = "/robot_description" then some "<robot><link/></robot>" else none
  getParamDouble := fun _ => none
  initString := fun _ => ⟨fun _ => none⟩
  treeFromUrdfModel := fun _ => some treeNoChain

/-- A chain of two segments: a rotation about an axis, then a fixed joint. -/
def chainRotFixed : KDL.Chain :=
  ⟨[⟨⟨"j1", KDL.JointType.RotAxis⟩⟩, ⟨⟨"j2", KDL.JointType.None⟩⟩]⟩

/-- Bound arrays for a chain with one joint. -/
def q_min_demo : KDL.JntArray := ⟨[-1]⟩

/-- An upper-bound array one entry too long for a chain with one joint. -/
def q_max_long : KDL.JntArray := ⟨[1, 2]⟩

/-- A velocity array for a chain with one joint. -/
def v_max_demo : KDL.JntArray := ⟨[3]⟩

/-- An acceleration array for a chain with one joint. -/
def a_max_demo : KDL.JntArray := ⟨[4]⟩

/-- The tag the classification rule assigns to an actuated joint of type `t` whose
bounds are `lo` and `up`: for a rotation, `Continuous` when `lo` is at or below
the lowest float and `up` at or above the largest, `Revolute` otherwise; for a
translation, `Prismatic`. -/
def ruleTag (t : KDL.JointType) (lo up : ℚ) : JointType :=
  if t.isRotational then
    if lo ≤ FLT_LOWEST ∧ up ≥ FLT_MAX then JointType.Continuous else JointType.Revolute
  else JointType.Prismatic

/-- An object before `initialize()`: the chain `chainRotFixed` with bounds for its
one joint. -/
def demoBefore : SNS_IK Ext.demo :=
  { demoBlank with
    m_chain := chainRotFixed
    m_lower_bounds := ⟨[-1]⟩
    m_upper_bounds := ⟨[1]⟩
    m_velocity := ⟨[3]⟩
    m_acceleration := ⟨[4]⟩ }

/-- The value of a joint's limit parameter `name` on the parameter server: the
lookup `node_handle.getParam(prefix + name, value)` of lines 92-103. -/
def limitParam (ros : Ros) (URDF_param : String) (joint : urdf.Joint) (name : String) :
    Option ℚ :=
  ros.getParamDouble (limitsKey (urdf_xml ros URDF_param) joint ++ name)

/-- The minimum of a value and a candidate that may be missing; a missing
candidate does not constrain. -/
def minOpt (a : ℚ) : Option ℚ → ℚ
  | none => a
  | some b => min a b

/-- The maximum of a value and a candidate that may be missing; a missing
candidate does not constrain. -/
def maxOpt (a : ℚ) : Option ℚ → ℚ
  | none => a
  | some b => max a b

/-- The four arrays hold the four values `v` at index `i`. -/
def Bounds.holds (b : Bounds) (i : Nat) (v : JointValues) : Prop :=
  b.m_lower_bounds.data[i]? = some v.lower ∧ b.m_upper_bounds.data[i]? = some v.upper ∧
  b.m_velocity.data[i]? = some v.velocity ∧ b.m_acceleration.data[i]? = some v.acceleration

/-- Two sets of arrays agree at index `i`. -/
def Bounds.sameAt (b c : Bounds) (i : Nat) : Prop :=
  b.m_lower_bounds.data[i]? = c.m_lower_bounds.data[i]? ∧
  b.m_upper_bounds.data[i]? = c.m_upper_bounds.data[i]? ∧
  b.m_velocity.data[i]? = c.m_velocity.data[i]? ∧
  b.m_acceleration.data[i]? = c.m_acceleration.data[i]?

/-- The URDF constructor, called with these arguments, found the description,
extracted a tree, ran its loop to the end and built the object `s`; and `joint`
is the `k`-th joint its loop processed, counting from zero. -/
def Processes {X : Ext} (ros : Ros) (base_link tip_link URDF_param : String)
    (maxtime eps : ℚ) (type : X.SolveType) (s : SNS_IK X) (k : Nat) (joint : urdf.Joint) : Prop :=
  SNS_IK.SNS_IK_urdf ros base_link tip_link URDF_param maxtime eps type = some s ∧
  ∃ xml tree, ros.getParamString (full_urdf_xml ros URDF_param) = some xml ∧
    ros.treeFromUrdfModel (robot_model ros URDF_param) = some tree ∧
    (processedJoints (robot_model ros URDF_param)
      (tree.getChain base_link tip_link).2.segments)[k]? = some joint

/-- A revolute joint with base limits `[-4, 4]`, velocity `6`, soft limits
`[-3, 3]` and, on the parameter server of `rosArm`, overrides of its upper
position and of its velocity. -/
def armRevolute : urdf.Joint where
  name := "j1"
  type := urdf.JointType.REVOLUTE
  limits := some ⟨-4, 4, 10, 6⟩
  safety := some ⟨3, -3, 0, 0⟩

/-- A continuous joint with base velocity limit `5` and, on the parameter server
of `rosArm`, an override of its upper position. -/
def armContinuous : urdf.Joint where
  name := "j2"
  type := urdf.JointType.CONTINUOUS
  limits := some ⟨0, 0, 10, 5⟩
  safety := none

/-- A fixed joint. -/
def armFixed : urdf.Joint where
  name := "j3"
  type := urdf.JointType.FIXED
  limits := none
  safety := none

/-- The chain of the arm: the revolute joint, the fixed joint, the continuous
joint. -/
def armChain : KDL.Chain :=
  ⟨[⟨⟨"j1", KDL.JointType.RotAxis⟩⟩, ⟨⟨"j3", KDL.JointType.None⟩⟩,
    ⟨⟨"j2", KDL.JointType.RotAxis⟩⟩]⟩

/-- A parameter server and model for the arm: the description is under
`/robot_description`, the tree has the chain `armChain`, and three limit
overrides are set. -/
def rosArm : Ros where
  param := fun key dflt => if key = "/robot_description" then "<robot><link/></robot>" else dflt
  searchParam := fun name => some ("/" ++ name)
  getParamString := fun key =>
    if key = "/robot_description" then some "<robot><link/></robot>" else none
  getParamDouble := fun key =>
    if key = "robot_description_planning/joint_limits/j1/max_position" then some 2
    else if key = "robot_description_planning/joint_limits/j1/max_velocity" then some (-5)
    else if key = "robot_description_planning/joint_limits/j2/max_position" then some 1
    else none
  initString := fun _ =>
    ⟨fun name =>
      if name = "j1" then some armRevolute
      else if name = "j2" then some armContinuous
      else if name = "j3" then some armFixed
      else none⟩
  treeFromUrdfModel := fun _ => some ⟨fun _ _ => (true, armChain)⟩

/-- The object the URDF constructor builds for the arm. -/
def armFacade : SNS_IK Ext.demo where
  m_initialized := true
  m_eps := 1
  m_maxtime := 1
  m_solvetype := ()
  m_chain := armChain
  m_lower_bounds := ⟨[-3, FLT_LOWEST]⟩
  m_upper_bounds := ⟨[2, 1]⟩
  m_velocity := ⟨[5, 0]⟩
  m_acceleration := ⟨[0, 0]⟩
  m_types := [JointType.Revolute, JointType.Revolute]
  m_ik_vel_solver := some (2 : Nat)
  m_ik_pos_solver := some (2 : Nat)
  trace := [Event.new_SNSVelocityIK 2, Event.setJointsCapabilities, Event.new_SNSPositionIK]

/-- A second parameter server for the arm: for `j1` a `max_position` override of
`-5`, below the joint's lower limits, and a `max_acceleration` override of `-7`. -/
def rosCrossed : Ros where
  param := fun key dflt => if key = "/robot_description" then "<robot><link/></robot>" else dflt
  searchParam := fun name => some ("/" ++ name)
  getParamString := fun key =>
    if key = "/robot_description" then some "<robot><link/></robot>" else none
  getParamDouble := fun key =>
    if key = "robot_description_planning/joint_limits/j1/max_position" then some (-5)
    else if key = "robot_description_planning/joint_limits/j1/max_acceleration" then some (-7)
    else none
  initString := fun _ =>
    ⟨fun name =>
      if name = "j1" then some armRevolute
      else if name = "j2" then some armContinuous
      else if name = "j3" then some armFixed
      else none⟩
  treeFromUrdfModel := fun _ => some ⟨fun _ _ => (true, armChain)⟩

/-- The object the URDF constructor builds for the arm with the parameter server
`rosCrossed`. -/
def crossedFacade : SNS_IK Ext.demo where
  m_initialized := true
  m_eps := 1
  m_maxtime := 1
  m_solvetype := ()
  m_chain := armChain
  m_lower_bounds := ⟨[-3, FLT_LOWEST]⟩
  m_upper_bounds := ⟨[-5, FLT_MAX]⟩
  m_velocity := ⟨[6, 0]⟩
  m_acceleration := ⟨[7, 0]⟩
  m_types := [JointType.Revolute, JointType.Continuous]
  m_ik_vel_solver := some (2 : Nat)
  m_ik_pos_solver := some (2 : Nat)
  trace := [Event.new_SNSVelocityIK 2, Event.setJointsCapabilities, Event.new_SNSPositionIK]

/-- The lower-bound candidates of a joint that are present: for a continuous
joint the lowest float, otherwise the base lower limit and the soft lower limit;
then the `min_position` override. -/
def lowerCandidates (ros : Ros) (URDF_param : String) (joint : urdf.Joint) : List ℚ :=
  (if joint.type = urdf.JointType.CONTINUOUS then [FLT_LOWEST]
   else (joint.limits.map fun l => l.lower).toList ++
     (joint.safety.map fun sf => sf.soft_lower_limit).toList) ++
  (limitParam ros URDF_param joint "min_position").toList

/-- The upper-bound candidates of a joint that are present: for a continuous
joint the largest float, otherwise the base upper limit and the soft upper limit;
then the `max_position` override. -/
def upperCandidates (ros : Ros) (URDF_param : String) (joint : urdf.Joint) : List ℚ :=
  (if joint.type = urdf.JointType.CONTINUOUS then [FLT_MAX]
   else (joint.limits.map fun l => l.upper).toList ++
     (joint.safety.map fun sf => sf.soft_upper_limit).toList) ++
  (limitParam ros URDF_param joint "max_position").toList

/-- A parameter server without a robot description. -/
def rosNoDescription : Ros where
  param := fun _ dflt => dflt
  searchParam := fun _ => none
  getParamString := fun _ => none
  getParamDouble := fun _ => none
  initString := fun _ => ⟨fun _ => none⟩
  treeFromUrdfModel := fun _ => none

/-- An upper-bound array for a chain with one joint. -/
def q_max_demo : KDL.JntArray := ⟨[1]⟩

/-- An instance of the external declarations whose position solver keeps no
state: it answers with code `7` and copies `q_init` to `q_out`. -/
@[reducible]
def Ext.stateless : Ext where
  Frame := ℚ
  Twist := ℚ
  SolveType := Unit
  SNSVelocityIK := Nat
  SNSPositionIK := Nat
  newSNSVelocityIK := fun n _ => n
  setJointsCapabilities := fun v _ _ _ _ => v
  newSNSPositionIK := fun _ v => v
  posCartToJnt := fun p q_init _ _ _ => (7, q_init, p)

/-- A ready object with the stateless solver. -/
def statelessReady : SNS_IK Ext.stateless :=
  { SNS_IK.blank 1 1 () with
    m_initialized := true
    m_ik_vel_solver := some (0 : Nat)
    m_ik_pos_solver := some (0 : Nat) }

/-- A segment of the chain comes from the model the way kdl_parser makes it, and
its joint is of one of the four axis kinds: its joint is a joint of the model; a
revolute or continuous joint gives a rotation, a prismatic joint a translation,
a fixed or unknown joint the type `None`; and a revolute or prismatic joint has
limits, as the URDF format requires. -/
def segmentFromModel (model : urdf.Model) (seg : KDL.Segment) : Bool :=
  match model.getJoint seg.getJoint.getName with
  | none => false
  | some joint =>
    match joint.type with
    | urdf.JointType.REVOLUTE => seg.getJoint.type.isRotational && joint.limits.isSome
    | urdf.JointType.CONTINUOUS => seg.getJoint.type.isRotational
    | urdf.JointType.PRISMATIC => seg.getJoint.type.isTranslational && joint.limits.isSome
    | urdf.JointType.FIXED => decide (seg.getJoint.type = KDL.JointType.None)
    | urdf.JointType.UNKNOWN => decide (seg.getJoint.type = KDL.JointType.None)
    | urdf.JointType.FLOATING => false
    | urdf.JointType.PLANAR => false

/-- Every segment of the chain comes from the model and is of one of the four axis
kinds. -/
def chainFromModel (model : urdf.Model) (chain : KDL.Chain) : Bool :=
  chain.segments.all (segmentFromModel model)

/-- The tree of the arm: every request yields `armChain`. -/
def armTree : KDL.Tree := ⟨fun _ _ => (true, armChain)⟩

/-! ## Theorems -/

/-! ### CartToJnt -/

/-- C1: on an object whose `m_initialized` is false, `CartToJnt` returns `-1`,
leaves `q_out` as the caller passed it, leaves both solver handles as they were,
and adds to the trace the error report alone, so no call to the position-level
solver is made. -/
theorem CartToJnt_not_initialized {X : Ext} (s : SNS_IK X) (q_init : KDL.JntArray)
    (p_in : X.Frame) (q_out : KDL.JntArray) (tolerances : X.Twist)
    (h : s.m_initialized = false) :
    ∃ r, s.CartToJnt q_init p_in q_out tolerances = some r ∧ r.ret = -1 ∧ r.q_out = q_out ∧
      r.self.m_initialized = false ∧
      r.self.m_ik_pos_solver = s.m_ik_pos_solver ∧
      r.self.m_ik_vel_solver = s.m_ik_vel_solver ∧
      r.self.trace = s.trace ++
        [Event.ROS_ERROR "SNS_IK was not properly initialized with a valid chain or limits."] ∧
      Event.pos_CartToJnt ∉ r.self.trace.drop s.trace.length := by
  simp [SNS_IK.CartToJnt, h]

/-- C1, at a concrete object. -/
theorem CartToJnt_not_initialized_witness :
    demoBlank.m_initialized = false ∧
    ∃ r, demoBlank.CartToJnt ⟨[1, 2]⟩ (3 : ℚ) ⟨[4, 5]⟩ (6 : ℚ) = some r ∧ r.ret = -1 ∧
      r.q_out = ⟨[4, 5]⟩ ∧
      r.self.m_initialized = false ∧
      r.self.m_ik_pos_solver = demoBlank.m_ik_pos_solver ∧
      r.self.m_ik_vel_solver = demoBlank.m_ik_vel_solver ∧
      r.self.trace = demoBlank.trace ++
        [Event.ROS_ERROR "SNS_IK was not properly initialized with a valid chain or limits."] ∧
      Event.pos_CartToJnt ∉ r.self.trace.drop demoBlank.trace.length :=
  ⟨rfl, CartToJnt_not_initialized demoBlank ⟨[1, 2]⟩ (3 : ℚ) ⟨[4, 5]⟩ (6 : ℚ) rfl⟩

/-- C2: on an object whose `m_initialized` is true (its position-solver handle
then points to a solver), `CartToJnt` makes one call of that solver's `CartToJnt`
with the same `q_init`, `p_in`, `q_out` and `tolerances`; the return code is the
solver's code, `q_out` is what the solver left there, and the solver is in the
state that call left it in. -/
theorem CartToJnt_initialized {X : Ext} (s : SNS_IK X) (solver : X.SNSPositionIK)
    (q_init : KDL.JntArray) (p_in : X.Frame) (q_out : KDL.JntArray) (tolerances : X.Twist)
    (h : s.m_initialized = true) (hs : s.m_ik_pos_solver = some solver) :
    ∃ r, s.CartToJnt q_init p_in q_out tolerances = some r ∧
      r.ret = (X.posCartToJnt solver q_init p_in q_out tolerances).1 ∧
      r.q_out = (X.posCartToJnt solver q_init p_in q_out tolerances).2.1 ∧
      r.self.m_ik_pos_solver = some (X.posCartToJnt solver q_init p_in q_out tolerances).2.2 ∧
      r.self.m_initialized = true ∧
      r.self.trace = s.trace ++ [Event.pos_CartToJnt] := by
  simp [SNS_IK.CartToJnt, h, hs]

/-- C2, at a concrete object. -/
theorem CartToJnt_initialized_witness :
    demoReady.m_initialized = true ∧ demoReady.m_ik_pos_solver = some (0 : Nat) ∧
    ∃ r, demoReady.CartToJnt ⟨[1, 2]⟩ (3 : ℚ) ⟨[4, 5]⟩ (6 : ℚ) = some r ∧
      r.ret = (Ext.demo.posCartToJnt (0 : Nat) ⟨[1, 2]⟩ (3 : ℚ) ⟨[4, 5]⟩ (6 : ℚ)).1 ∧
      r.q_out = (Ext.demo.posCartToJnt (0 : Nat) ⟨[1, 2]⟩ (3 : ℚ) ⟨[4, 5]⟩ (6 : ℚ)).2.1 ∧
      r.self.m_ik_pos_solver =
        some (Ext.demo.posCartToJnt (0 : Nat) ⟨[1, 2]⟩ (3 : ℚ) ⟨[4, 5]⟩ (6 : ℚ)).2.2 ∧
      r.self.m_initialized = true ∧
      r.self.trace = demoReady.trace ++ [Event.pos_CartToJnt] :=
  ⟨rfl, rfl, CartToJnt_initialized demoReady (0 : Nat) ⟨[1, 2]⟩ (3 : ℚ) ⟨[4, 5]⟩ (6 : ℚ) rfl rfl⟩

/-! ### The URDF constructor: failures to obtain the chain -/

/-- When the robot description is not on the parameter server, the URDF
constructor returns at line 42 with `m_initialized` false. -/
theorem SNS_IK_urdf_no_description {X : Ext} (ros : Ros) (base_link tip_link URDF_param : String)
    (maxtime eps : ℚ) (type : X.SolveType)
    (h : ros.getParamString (full_urdf_xml ros URDF_param) = none) :
    ∃ s : SNS_IK X, SNS_IK.SNS_IK_urdf ros base_link tip_link URDF_param maxtime eps type = some s ∧
      s.m_initialized = false ∧ s.m_ik_pos_solver = none ∧ s.m_ik_vel_solver = none := by
  simp [SNS_IK.SNS_IK_urdf, h, SNS_IK.blank]

/-- When no tree can be extracted from the model, the URDF constructor returns at
line 52 with `m_initialized` false. -/
theorem SNS_IK_urdf_no_tree {X : Ext} (ros : Ros) (base_link tip_link URDF_param : String)
    (maxtime eps : ℚ) (type : X.SolveType) (xml : String)
    (h : ros.getParamString (full_urdf_xml ros URDF_param) = some xml)
    (ht : ros.treeFromUrdfModel (robot_model ros URDF_param) = none) :
    ∃ s : SNS_IK X, SNS_IK.SNS_IK_urdf ros base_link tip_link URDF_param maxtime eps type = some s ∧
      s.m_initialized = false ∧ s.m_ik_pos_solver = none ∧ s.m_ik_vel_solver = none := by
  simp [SNS_IK.SNS_IK_urdf, h, ht, SNS_IK.blank]

/-- C3, the code at the failing input: the description is on the parameter
server and a tree is extracted, but the tree has no chain from `base` to `tip`.
`getChain` fails and line 56 reports it, but the constructor does not return: it
goes on to `initialize()` with the empty chain, every check of which holds, and
the object ends with `m_initialized` true; `CartToJnt` then calls the solver and
returns its code `7`, not `-1`. -/
theorem SNS_IK_urdf_no_chain_initialized :
    ∃ s : SNS_IK Ext.demo,
      SNS_IK.SNS_IK_urdf rosNoChain "base" "tip" "robot_description" 1 1 () = some s ∧
      s.m_initialized = true ∧
      s.trace = [Event.ROS_FATAL "Couldn't find chain %s to %s", Event.new_SNSVelocityIK 0,
        Event.setJointsCapabilities, Event.new_SNSPositionIK] ∧
      ∃ r, s.CartToJnt ⟨[]⟩ (0 : ℚ) ⟨[]⟩ (0 : ℚ) = some r ∧ r.ret = 7 :=
  ⟨_, rfl, rfl, rfl, _, rfl, rfl⟩

/-! ### initialize(): the size checks -/

/-- C4: when the explicit-bounds constructor is given a `q_min`, `q_max`, `v_max`
or `a_max` whose length is not the chain's number of joints (or when the
joint-type sequence the loop computes has another length), `initialize()` stops
at a failed check: the object exists, `m_initialized` is false, neither solver
has been constructed, the trace holds a failed check and nothing else, and every
`CartToJnt` on it returns `-1`, leaves `q_out` alone, calls no solver and leaves
the object not initialized. -/
theorem SNS_IK_chain_length_mismatch {X : Ext} (chain : KDL.Chain)
    (q_min q_max v_max a_max : KDL.JntArray) (maxtime eps : ℚ) (type : X.SolveType)
    (h : q_min.data.length ≠ chain.getNrOfJoints ∨ q_max.data.length ≠ chain.getNrOfJoints ∨
      v_max.data.length ≠ chain.getNrOfJoints ∨ a_max.data.length ≠ chain.getNrOfJoints ∨
      ∃ ts, populateTypes q_min q_max chain.segments [] = some ts ∧
        ts.length ≠ chain.getNrOfJoints) :
    ∃ s : SNS_IK X, SNS_IK.SNS_IK_chain chain q_min q_max v_max a_max maxtime eps type = some s ∧
      s.m_initialized = false ∧ s.m_ik_vel_solver = none ∧ s.m_ik_pos_solver = none ∧
      (∃ msg, s.trace = [Event.ROS_ASSERT_failed msg]) ∧
      ∀ (q_init : KDL.JntArray) (p_in : X.Frame) (q_out : KDL.JntArray) (tolerances : X.Twist),
        ∃ r, s.CartToJnt q_init p_in q_out tolerances = some r ∧ r.ret = -1 ∧
          r.q_out = q_out ∧ r.self.m_initialized = false ∧ r.self.m_ik_vel_solver = none ∧
          r.self.m_ik_pos_solver = none ∧ Event.pos_CartToJnt ∉ r.self.trace := by
  have fin : ∀ (s : SNS_IK X) (msg : String), s.m_initialized = false → s.m_ik_vel_solver = none →
      s.m_ik_pos_solver = none → s.trace = [Event.ROS_ASSERT_failed msg] →
      s.m_initialized = false ∧ s.m_ik_vel_solver = none ∧ s.m_ik_pos_solver = none ∧
      (∃ msg, s.trace = [Event.ROS_ASSERT_failed msg]) ∧
      ∀ (q_init : KDL.JntArray) (p_in : X.Frame) (q_out : KDL.JntArray) (tolerances : X.Twist),
        ∃ r, s.CartToJnt q_init p_in q_out tolerances = some r ∧ r.ret = -1 ∧
          r.q_out = q_out ∧ r.self.m_initialized = false ∧ r.self.m_ik_vel_solver = none ∧
          r.self.m_ik_pos_solver = none ∧ Event.pos_CartToJnt ∉ r.self.trace := by
    intro s msg hi hv hp ht
    refine ⟨hi, hv, hp, ⟨msg, ht⟩, ?_⟩
    intro q_init p_in q_out tolerances
    simp [SNS_IK.CartToJnt, hi, hv, hp, ht]
  unfold SNS_IK.SNS_IK_chain SNS_IK.initialise ROS_ASSERT_MSG
  simp only [beq_iff_eq]
  by_cases h1 : chain.getNrOfJoints = q_min.data.length
  · by_cases h2 : chain.getNrOfJoints = q_max.data.length
    · by_cases h3 : chain.getNrOfJoints = v_max.data.length
      · by_cases h4 : chain.getNrOfJoints = a_max.data.length
        · rcases h with h | h | h | h | ⟨ts, hts, hlen⟩
          · exact absurd h1.symm h
          · exact absurd h2.symm h
          · exact absurd h3.symm h
          · exact absurd h4.symm h
          · have hne : ¬ ts.length = q_min.data.length := by omega
            rw [if_pos h1, if_pos h2, if_pos h3, if_pos h4, hts]
            simp only []
            rw [if_neg hne]
            exact ⟨_, rfl, fin _ _ rfl rfl rfl rfl⟩
        · rw [if_pos h1, if_pos h2, if_pos h3, if_neg h4]
          exact ⟨_, rfl, fin _ _ rfl rfl rfl rfl⟩
      · rw [if_pos h1, if_pos h2, if_neg h3]
        exact ⟨_, rfl, fin _ _ rfl rfl rfl rfl⟩
    · rw [if_pos h1, if_neg h2]
      exact ⟨_, rfl, fin _ _ rfl rfl rfl rfl⟩
  · rw [if_neg h1]
    exact ⟨_, rfl, fin _ _ rfl rfl rfl rfl⟩

/-- C4, at a concrete input: a chain with one joint and a `q_max` of length
two. -/
theorem SNS_IK_chain_length_mismatch_witness :
    (q_min_demo.data.length ≠ chainRotFixed.getNrOfJoints ∨
      q_max_long.data.length ≠ chainRotFixed.getNrOfJoints ∨
      v_max_demo.data.length ≠ chainRotFixed.getNrOfJoints ∨
      a_max_demo.data.length ≠ chainRotFixed.getNrOfJoints ∨
      ∃ ts, populateTypes q_min_demo q_max_long chainRotFixed.segments [] = some ts ∧
        ts.length ≠ chainRotFixed.getNrOfJoints) ∧
    ∃ s : SNS_IK Ext.demo,
      SNS_IK.SNS_IK_chain chainRotFixed q_min_demo q_max_long v_max_demo a_max_demo 1 1 () =
        some s ∧
      s.m_initialized = false ∧ s.m_ik_vel_solver = none ∧ s.m_ik_pos_solver = none ∧
      (∃ msg, s.trace = [Event.ROS_ASSERT_failed msg]) ∧
      ∀ (q_init : KDL.JntArray) (p_in : ℚ) (q_out : KDL.JntArray) (tolerances : ℚ),
        ∃ r, s.CartToJnt q_init p_in q_out tolerances = some r ∧ r.ret = -1 ∧
          r.q_out = q_out ∧ r.self.m_initialized = false ∧ r.self.m_ik_vel_solver = none ∧
          r.self.m_ik_pos_solver = none ∧ Event.pos_CartToJnt ∉ r.self.trace :=
  ⟨Or.inr (Or.inl (by decide)),
    SNS_IK_chain_length_mismatch chainRotFixed q_min_demo q_max_long v_max_demo a_max_demo 1 1 ()
      (Or.inr (Or.inl (by decide)))⟩

/-! ### initialize(): the joint types -/

/-- The loop body on a segment whose joint is not counted: `m_types` stays. -/
theorem pushType_not_counted (lower upper : KDL.JntArray) (ts : List JointType)
    (seg : KDL.Segment) (h : seg.counted = false) :
    pushType lower upper ts seg = some ts := by
  have ht : seg.getJoint.type = KDL.JointType.None := by
    simpa [KDL.Segment.counted] using h
  have h1 : find_ne_npos "None" "Rot" = false := by decide
  have h2 : find_ne_npos "None" "Trans" = false := by decide
  simp [pushType, KDL.Joint.getTypeName, ht, h1, h2]

/-- The loop body on a segment whose joint is counted, when both bound arrays
reach index `m_types.size()`: one tag is pushed, the one the rule gives. -/
theorem pushType_counted (lower upper : KDL.JntArray) (ts : List JointType)
    (seg : KDL.Segment) (lo up : ℚ) (h : seg.counted = true)
    (hlo : lower.data[ts.length]? = some lo) (hup : upper.data[ts.length]? = some up) :
    pushType lower upper ts seg = some (ts ++ [ruleTag seg.getJoint.type lo up]) := by
  have r1 : find_ne_npos "RotAxis" "Rot" = true := by decide
  have r2 : find_ne_npos "RotX" "Rot" = true := by decide
  have r3 : find_ne_npos "RotY" "Rot" = true := by decide
  have r4 : find_ne_npos "RotZ" "Rot" = true := by decide
  have t1 : find_ne_npos "TransAxis" "Rot" = false := by decide
  have t2 : find_ne_npos "TransX" "Rot" = false := by decide
  have t3 : find_ne_npos "TransY" "Rot" = false := by decide
  have t4 : find_ne_npos "TransZ" "Rot" = false := by decide
  have u1 : find_ne_npos "TransAxis" "Trans" = true := by decide
  have u2 : find_ne_npos "TransX" "Trans" = true := by decide
  have u3 : find_ne_npos "TransY" "Trans" = true := by decide
  have u4 : find_ne_npos "TransZ" "Trans" = true := by decide
  have hne : seg.getJoint.type ≠ KDL.JointType.None := by
    simpa [KDL.Segment.counted] using h
  cases ht : seg.getJoint.type with
  | None => exact absurd ht hne
  | RotAxis | RotX | RotY | RotZ =>
    simp only [pushType, KDL.Joint.getTypeName, ht, r1, r2, r3, r4, KDL.JntArray.read, hlo, hup,
      ruleTag, KDL.JointType.isRotational, if_true]
    by_cases hu : up ≥ FLT_MAX
    · by_cases hl : lo ≤ FLT_LOWEST
      · simp [hu, hl]
      · simp [hu, hl]
    · simp [hu]
  | TransAxis | TransX | TransY | TransZ =>
    simp [pushType, KDL.Joint.getTypeName, ht, t1, t2, t3, t4, u1, u2, u3, u4,
      ruleTag, KDL.JointType.isRotational]

/-- The loop of `initialize()`: when the bound arrays have room for every counted
segment still to come, the loop ends, pushes one tag for each counted segment and
none for the others, keeps the tags already there, and the tag of the `k`-th
counted segment is the one the rule gives from the bounds at its index. -/
theorem populateTypes_spec (lower upper : KDL.JntArray) :
    ∀ (segs : List KDL.Segment) (ts : List JointType),
      ts.length + segs.countP KDL.Segment.counted ≤ lower.data.length →
      ts.length + segs.countP KDL.Segment.counted ≤ upper.data.length →
      ∃ ts', populateTypes lower upper segs ts = some ts' ∧
        ts'.length = ts.length + segs.countP KDL.Segment.counted ∧
        (∀ i, i < ts.length → ts'[i]? = ts[i]?) ∧
        ∀ (k : Nat) (seg : KDL.Segment), (segs.filter KDL.Segment.counted)[k]? = some seg →
          ∃ lo up, lower.data[ts.length + k]? = some lo ∧ upper.data[ts.length + k]? = some up ∧
            ts'[ts.length + k]? = some (ruleTag seg.getJoint.type lo up) := by
  intro segs
  induction segs with
  | nil =>
    intro ts _ _
    exact ⟨ts, rfl, by simp, fun _ _ => rfl, by simp⟩
  | cons seg rest ih =>
    intro ts hl hu
    by_cases hc : seg.counted = true
    · have hcnt : (seg :: rest).countP KDL.Segment.counted =
          rest.countP KDL.Segment.counted + 1 := by simp [List.countP_cons, hc]
      rw [hcnt] at hl hu
      have hlt : ts.length < lower.data.length := by omega
      have hut : ts.length < upper.data.length := by omega
      have hlo : lower.data[ts.length]? = some (lower.data[ts.length]) :=
        List.getElem?_eq_getElem hlt
      have hup : upper.data[ts.length]? = some (upper.data[ts.length]) :=
        List.getElem?_eq_getElem hut
      have hp := pushType_counted lower upper ts seg _ _ hc hlo hup
      obtain ⟨ts', hrun, hlen, hkeep, htag⟩ :=
        ih (ts ++ [ruleTag seg.getJoint.type (lower.data[ts.length]) (upper.data[ts.length])])
          (by simp; omega) (by simp; omega)
      refine ⟨ts', by simp [populateTypes, hp, hrun], by simp at hlen; omega, ?_, ?_⟩
      · intro i hi
        rw [hkeep i (by simp; omega), List.getElem?_append_left hi]
      · intro k sg hk
        rw [List.filter_cons_of_pos hc] at hk
        cases k with
        | zero =>
          simp only [List.getElem?_cons_zero, Option.some.injEq] at hk
          subst hk
          refine ⟨_, _, hlo, hup, ?_⟩
          rw [Nat.add_zero, hkeep ts.length (by simp)]
          simp
        | succ k =>
          simp only [List.getElem?_cons_succ] at hk
          obtain ⟨lo, up, h1, h2, h3⟩ := htag k sg hk
          simp only [List.length_append, List.length_singleton] at h1 h2 h3
          exact ⟨lo, up, by rw [← h1]; congr 1; omega, by rw [← h2]; congr 1; omega,
            by rw [← h3]; congr 1; omega⟩
    · have hc' : seg.counted = false := by simpa using hc
      have hcnt : (seg :: rest).countP KDL.Segment.counted =
          rest.countP KDL.Segment.counted := by simp [List.countP_cons, hc']
      rw [hcnt] at hl hu
      have hp := pushType_not_counted lower upper ts seg hc'
      obtain ⟨ts', hrun, hlen, hkeep, htag⟩ := ih ts hl hu
      refine ⟨ts', by simp [populateTypes, hp, hrun], by rw [hlen, hcnt], hkeep, ?_⟩
      intro k sg hk
      rw [List.filter_cons_of_neg hc] at hk
      exact htag k sg hk

/-- C5: on an object with no tags yet whose four bound arrays have the length of
the number of joints of its chain, `initialize()` ends with one tag for each
actuated joint and none for a fixed one, and the tag of the `k`-th actuated joint
is: for a rotational axis, `Continuous` exactly when `lower[k]` is at or below the
lowest float and `upper[k]` is at or above the largest float, and `Revolute`
otherwise; for a translational axis, `Prismatic`. -/
theorem initialise_types {X : Ext} (s : SNS_IK X) (hty : s.m_types = [])
    (hl : s.m_lower_bounds.data.length = s.m_chain.getNrOfJoints)
    (hu : s.m_upper_bounds.data.length = s.m_chain.getNrOfJoints)
    (hv : s.m_velocity.data.length = s.m_chain.getNrOfJoints)
    (ha : s.m_acceleration.data.length = s.m_chain.getNrOfJoints) :
    ∃ s', s.initialise = some s' ∧
      s'.m_types.length = s.m_chain.actuated.length ∧
      ∀ (k : Nat) (seg : KDL.Segment), s.m_chain.actuated[k]? = some seg →
        ∃ lo up tag, s.m_lower_bounds.data[k]? = some lo ∧ s.m_upper_bounds.data[k]? = some up ∧
          s'.m_types[k]? = some tag ∧
          (seg.getJoint.type.isRotational = true →
            ((tag = JointType.Continuous ↔ lo ≤ FLT_LOWEST ∧ up ≥ FLT_MAX) ∧
             (tag = JointType.Revolute ↔ ¬ (lo ≤ FLT_LOWEST ∧ up ≥ FLT_MAX)))) ∧
          (seg.getJoint.type.isTranslational = true → tag = JointType.Prismatic) ∧
          (seg.getJoint.type.isRotational = true ∨ seg.getJoint.type.isTranslational = true) := by
  obtain ⟨ts', hrun, hlen, _, htag⟩ :=
    populateTypes_spec s.m_lower_bounds s.m_upper_bounds s.m_chain.segments s.m_types
      (by rw [hty, hl]; simp [KDL.Chain.getNrOfJoints])
      (by rw [hty, hu]; simp [KDL.Chain.getNrOfJoints])
  have hlen' : ts'.length = s.m_lower_bounds.data.length := by
    rw [hlen, hty, hl]; simp [KDL.Chain.getNrOfJoints]
  have hact : s.m_chain.actuated.length = s.m_chain.getNrOfJoints := by
    simp [KDL.Chain.actuated, KDL.Chain.getNrOfJoints, List.countP_eq_length_filter]
  refine ⟨_, by
    unfold SNS_IK.initialise ROS_ASSERT_MSG
    simp only [beq_iff_eq]
    rw [if_pos hl.symm, if_pos hu.symm, if_pos hv.symm, if_pos ha.symm, hrun]
    simp only []
    rw [if_pos hlen'], ?_, ?_⟩
  · show ts'.length = _
    rw [hlen', hl, hact]
  · intro k seg hk
    obtain ⟨lo, up, h1, h2, h3⟩ := htag k seg hk
    rw [hty] at h1 h2 h3
    simp only [List.length_nil, Nat.zero_add] at h1 h2 h3
    refine ⟨lo, up, _, h1, h2, h3, ?_, ?_, ?_⟩
    · intro hr
      by_cases hc : lo ≤ FLT_LOWEST ∧ up ≥ FLT_MAX <;> simp [ruleTag, hr, hc]
    · intro htr
      have : seg.getJoint.type.isRotational = false := by
        cases hh : seg.getJoint.type <;> simp_all [KDL.JointType.isTranslational,
          KDL.JointType.isRotational]
      simp [ruleTag, this]
    · have hmem : seg ∈ s.m_chain.actuated := List.getElem?_mem hk
      have hc : seg.counted = true := by
        simp only [KDL.Chain.actuated, List.mem_filter] at hmem
        exact hmem.2
      have hne : seg.getJoint.type ≠ KDL.JointType.None := by
        simpa [KDL.Segment.counted] using hc
      cases hh : seg.getJoint.type <;> simp_all [KDL.JointType.isTranslational,
        KDL.JointType.isRotational]

/-- C5, at a concrete object: a chain of one rotation and one fixed joint. -/
theorem initialise_types_witness :
    ∃ s', demoBefore.initialise = some s' ∧
      s'.m_types.length = demoBefore.m_chain.actuated.length ∧
      ∀ (k : Nat) (seg : KDL.Segment), demoBefore.m_chain.actuated[k]? = some seg →
        ∃ lo up tag, demoBefore.m_lower_bounds.data[k]? = some lo ∧
          demoBefore.m_upper_bounds.data[k]? = some up ∧
          s'.m_types[k]? = some tag ∧
          (seg.getJoint.type.isRotational = true →
            ((tag = JointType.Continuous ↔ lo ≤ FLT_LOWEST ∧ up ≥ FLT_MAX) ∧
             (tag = JointType.Revolute ↔ ¬ (lo ≤ FLT_LOWEST ∧ up ≥ FLT_MAX)))) ∧
          (seg.getJoint.type.isTranslational = true → tag = JointType.Prismatic) ∧
          (seg.getJoint.type.isRotational = true ∨ seg.getJoint.type.isTranslational = true) :=
  initialise_types demoBefore rfl (by decide) (by decide) (by decide) (by decide)

/-! ### The URDF constructor: the values stored -/

/-- On rationals `std::min` is the minimum. -/
theorem std_min_eq (a b : ℚ) : std_min a b = min a b := by
  unfold std_min
  split_ifs with h
  · exact (min_eq_right h.le).symm
  · exact (min_eq_left (not_lt.mp h)).symm

/-- On rationals `std::max` is the maximum. -/
theorem std_max_eq (a b : ℚ) : std_max a b = max a b := by
  unfold std_max
  split_ifs with h
  · exact (max_eq_right h.le).symm
  · exact (max_eq_left (not_lt.mp h)).symm

/-- On rationals `std::abs` is the absolute value. -/
theorem std_abs_eq (x : ℚ) : std_abs x = |x| := by
  unfold std_abs
  split_ifs with h
  · exact (abs_of_neg h).symm
  · exact (abs_of_nonneg (not_lt.mp h)).symm

/-- A write inside the array changes the entry written and no other. -/
theorem JntArray_write_spec (a a' : KDL.JntArray) (i : Nat) (v : ℚ)
    (h : a.write i v = some a') :
    a'.data[i]? = some v ∧ ∀ j, j ≠ i → a'.data[j]? = a.data[j]? := by
  unfold KDL.JntArray.write at h
  split_ifs at h with hi
  simp only [Option.some.injEq] at h
  subst h
  refine ⟨by simp [List.getElem?_set, hi], ?_⟩
  intro j hj
  simp [List.getElem?_set, Ne.symm hj]

/-- The four stores of lines 105-108 put the four values at `joint_num` and
change no other entry. -/
theorem Bounds_store_spec (b b' : Bounds) (joint_num : Nat) (v : JointValues)
    (h : b.store joint_num v = some b') :
    b'.holds joint_num v ∧ ∀ j, j ≠ joint_num → b'.sameAt b j := by
  unfold Bounds.store at h
  cases h1 : b.m_lower_bounds.write joint_num v.lower with
  | none => simp [h1] at h
  | some lo =>
    cases h2 : b.m_upper_bounds.write joint_num v.upper with
    | none => simp [h1, h2] at h
    | some up =>
      cases h3 : b.m_velocity.write joint_num v.velocity with
      | none => simp [h1, h2, h3] at h
      | some ve =>
        cases h4 : b.m_acceleration.write joint_num v.acceleration with
        | none => simp [h1, h2, h3, h4] at h
        | some ac =>
          simp only [h1, h2, h3, h4, Option.some.injEq] at h
          subst h
          have w1 := JntArray_write_spec _ _ _ _ h1
          have w2 := JntArray_write_spec _ _ _ _ h2
          have w3 := JntArray_write_spec _ _ _ _ h3
          have w4 := JntArray_write_spec _ _ _ _ h4
          exact ⟨⟨w1.1, w2.1, w3.1, w4.1⟩,
            fun j hj => ⟨w1.2 j hj, w2.2 j hj, w3.2 j hj, w4.2 j hj⟩⟩

/-- The loop of the URDF constructor: when it runs to the end, the entries below
the starting `joint_num` are as before, and the values of the `k`-th joint it
processed are at index `joint_num + k` of the four arrays. -/
theorem urdfLoop_spec (ros : Ros) (model : urdf.Model) (name : String) :
    ∀ (segs : List KDL.Segment) (joint_num : Nat) (b : Bounds) (r : Nat × Bounds),
      urdfLoop ros model name segs joint_num b = some r →
      (∀ i, i < joint_num → r.2.sameAt b i) ∧
      ∀ (k : Nat) (joint : urdf.Joint), (processedJoints model segs)[k]? = some joint →
        ∃ v, jointValues ros name joint = some v ∧ r.2.holds (joint_num + k) v := by
  intro segs
  induction segs with
  | nil =>
    intro joint_num b r h
    simp only [urdfLoop, Option.some.injEq] at h
    subst h
    exact ⟨fun i _ => ⟨rfl, rfl, rfl, rfl⟩, by simp [processedJoints]⟩
  | cons seg rest ih =>
    intro joint_num b r h
    unfold urdfLoop at h
    cases hj : model.getJoint seg.getJoint.getName with
    | none => simp [hj] at h
    | some joint =>
      simp only [hj] at h
      by_cases ht : joint.type ≠ urdf.JointType.UNKNOWN ∧ joint.type ≠ urdf.JointType.FIXED
      · rw [if_pos ht] at h
        cases hv : jointValues ros name joint with
        | none => simp [hv] at h
        | some v =>
          simp only [hv] at h
          cases hb : b.store joint_num v with
          | none => simp [hb] at h
          | some b1 =>
            simp only [hb] at h
            obtain ⟨hkeep, hvals⟩ := ih (joint_num + 1) b1 r h
            obtain ⟨hat, hother⟩ := Bounds_store_spec b b1 joint_num v hb
            have hpj : processedJoints model (seg :: rest) =
                joint :: processedJoints model rest := by
              simp [processedJoints, hj, ht]
            refine ⟨?_, ?_⟩
            · intro i hi
              have h1 := hkeep i (by omega)
              have h2 := hother i (by omega)
              exact ⟨h1.1.trans h2.1, h1.2.1.trans h2.2.1, h1.2.2.1.trans h2.2.2.1,
                h1.2.2.2.trans h2.2.2.2⟩
            · intro k jt hk
              rw [hpj] at hk
              cases k with
              | zero =>
                simp only [List.getElem?_cons_zero, Option.some.injEq] at hk
                subst hk
                have h1 := hkeep joint_num (by omega)
                exact ⟨v, hv, h1.1.trans hat.1, h1.2.1.trans hat.2.1,
                  h1.2.2.1.trans hat.2.2.1, h1.2.2.2.trans hat.2.2.2⟩
              | succ k =>
                simp only [List.getElem?_cons_succ] at hk
                obtain ⟨w, hw, hh⟩ := hvals k jt hk
                have e : joint_num + 1 + k = joint_num + (k + 1) := by omega
                rw [e] at hh
                exact ⟨w, hw, hh⟩
      · rw [if_neg ht] at h
        have hpj : processedJoints model (seg :: rest) = processedJoints model rest := by
          simp only [processedJoints, List.filterMap_cons, hj, if_neg ht]
        rw [hpj]
        exact ih joint_num b r h

/-- The member function `initialize()` leaves the four bound arrays and the chain
as they are. -/
theorem initialise_bounds {X : Ext} (s s' : SNS_IK X) (h : s.initialise = some s') :
    s'.m_lower_bounds = s.m_lower_bounds ∧ s'.m_upper_bounds = s.m_upper_bounds ∧
    s'.m_velocity = s.m_velocity ∧ s'.m_acceleration = s.m_acceleration ∧
    s'.m_chain = s.m_chain := by
  unfold SNS_IK.initialise ROS_ASSERT_MSG at h
  simp only [beq_iff_eq] at h
  split_ifs at h with h1 h2 h3 h4
  · cases hp : populateTypes s.m_lower_bounds s.m_upper_bounds s.m_chain.segments s.m_types with
    | none => simp [hp] at h
    | some ts =>
      simp only [hp] at h
      split_ifs at h with h5
      · simp only [Option.some.injEq] at h
        subst h
        exact ⟨rfl, rfl, rfl, rfl, rfl⟩
      · simp only [Option.some.injEq] at h
        subst h
        exact ⟨rfl, rfl, rfl, rfl, rfl⟩
  all_goals
    simp only [Option.some.injEq] at h
    subst h
    exact ⟨rfl, rfl, rfl, rfl, rfl⟩

/-- The object the URDF constructor builds holds, at index `k` of its four
arrays, the values lines 70-108 compute for the `k`-th joint the loop processed. -/
theorem SNS_IK_urdf_stored {X : Ext} (ros : Ros) (base_link tip_link URDF_param : String)
    (maxtime eps : ℚ) (type : X.SolveType) (s : SNS_IK X) (k : Nat) (joint : urdf.Joint)
    (h : Processes ros base_link tip_link URDF_param maxtime eps type s k joint) :
    ∃ v, jointValues ros (urdf_xml ros URDF_param) joint = some v ∧
      s.m_lower_bounds.data[k]? = some v.lower ∧ s.m_upper_bounds.data[k]? = some v.upper ∧
      s.m_velocity.data[k]? = some v.velocity ∧
      s.m_acceleration.data[k]? = some v.acceleration := by
  obtain ⟨hs, xml, tree, hxml, htree, hk⟩ := h
  unfold SNS_IK.SNS_IK_urdf at hs
  simp only [hxml, htree] at hs
  cases hl : urdfLoop ros (robot_model ros URDF_param) (urdf_xml ros URDF_param)
      (tree.getChain base_link tip_link).2.segments 0
      ⟨KDL.JntArray.resize (tree.getChain base_link tip_link).2.getNrOfJoints,
       KDL.JntArray.resize (tree.getChain base_link tip_link).2.getNrOfJoints,
       KDL.JntArray.resize (tree.getChain base_link tip_link).2.getNrOfJoints,
       KDL.JntArray.resize (tree.getChain base_link tip_link).2.getNrOfJoints⟩ with
  | none => simp [hl] at hs
  | some r =>
    simp only [hl] at hs
    obtain ⟨e1, e2, e3, e4, _⟩ := initialise_bounds _ _ hs
    obtain ⟨v, hv, hh⟩ := (urdfLoop_spec ros _ _ _ _ _ _ hl).2 k joint hk
    rw [Nat.zero_add] at hh
    exact ⟨v, hv, by rw [e1]; exact hh.1, by rw [e2]; exact hh.2.1, by rw [e3]; exact hh.2.2.1,
      by rw [e4]; exact hh.2.2.2⟩

/-- Lines 70-108 on a continuous joint: the bounds start from the two float
extremes and are then tightened by the position overrides; the velocity is zero
whatever the model and the parameter server say. -/
theorem jointValues_continuous (ros : Ros) (URDF_param : String) (joint : urdf.Joint)
    (hc : joint.type = urdf.JointType.CONTINUOUS) :
    ∃ v, jointValues ros (urdf_xml ros URDF_param) joint = some v ∧
      v.lower = maxOpt FLT_LOWEST (limitParam ros URDF_param joint "min_position") ∧
      v.upper = minOpt FLT_MAX (limitParam ros URDF_param joint "max_position") ∧
      v.velocity = 0 ∧
      v.acceleration = |(limitParam ros URDF_param joint "max_acceleration").getD 0| := by
  refine ⟨_, by simp [jointValues, modelLimits, hc]; rfl, ?_, ?_, ?_, ?_⟩
  · simp only [paramLimits, limitParam]
    cases ros.getParamDouble (limitsKey (urdf_xml ros URDF_param) joint ++ "min_position") <;>
      simp [maxOpt, std_max_eq]
  · simp only [paramLimits, limitParam]
    cases ros.getParamDouble (limitsKey (urdf_xml ros URDF_param) joint ++ "max_position") <;>
      simp [minOpt, std_min_eq]
  · simp only [paramLimits]
    cases ros.getParamDouble (limitsKey (urdf_xml ros URDF_param) joint ++ "max_velocity") with
    | none => rfl
    | some vel => simp [std_min_eq, std_abs_eq]
  · simp only [paramLimits, limitParam]
    cases ros.getParamDouble (limitsKey (urdf_xml ros URDF_param) joint ++ "max_acceleration") <;>
      simp [std_abs_eq]

/-- Lines 70-108 on a joint that is not continuous and has base limits: the
bounds are the base bounds tightened by the safety limits and by the position
overrides, where present; the velocity is the magnitude of the base velocity,
lowered to the magnitude of the velocity override where present. -/
theorem jointValues_limited (ros : Ros) (URDF_param : String) (joint : urdf.Joint)
    (limits : urdf.JointLimits) (hc : joint.type ≠ urdf.JointType.CONTINUOUS)
    (hl : joint.limits = some limits) :
    ∃ v, jointValues ros (urdf_xml ros URDF_param) joint = some v ∧
      v.lower = maxOpt (maxOpt limits.lower (joint.safety.map fun sf => sf.soft_lower_limit))
        (limitParam ros URDF_param joint "min_position") ∧
      v.upper = minOpt (minOpt limits.upper (joint.safety.map fun sf => sf.soft_upper_limit))
        (limitParam ros URDF_param joint "max_position") ∧
      v.velocity = minOpt |limits.velocity|
        ((limitParam ros URDF_param joint "max_velocity").map fun vel => |vel|) ∧
      v.acceleration = |(limitParam ros URDF_param joint "max_acceleration").getD 0| := by
  cases hs : joint.safety with
  | none =>
    refine ⟨_, by simp [jointValues, modelLimits, hc, hl, hs]; rfl, ?_, ?_, ?_, ?_⟩
    · simp only [paramLimits, limitParam]
      cases ros.getParamDouble (limitsKey (urdf_xml ros URDF_param) joint ++ "min_position") <;>
        simp [maxOpt, std_max_eq]
    · simp only [paramLimits, limitParam]
      cases ros.getParamDouble (limitsKey (urdf_xml ros URDF_param) joint ++ "max_position") <;>
        simp [minOpt, std_min_eq]
    · simp only [paramLimits, limitParam]
      cases ros.getParamDouble (limitsKey (urdf_xml ros URDF_param) joint ++ "max_velocity") <;>
        simp [minOpt, std_min_eq, std_abs_eq]
    · simp only [paramLimits, limitParam]
      cases ros.getParamDouble
        (limitsKey (urdf_xml ros URDF_param) joint ++ "max_acceleration") <;>
        simp [std_abs_eq]
  | some sf =>
    refine ⟨_, by simp [jointValues, modelLimits, hc, hl, hs]; rfl, ?_, ?_, ?_, ?_⟩
    · simp only [paramLimits, limitParam]
      cases ros.getParamDouble (limitsKey (urdf_xml ros URDF_param) joint ++ "min_position") <;>
        simp [maxOpt, std_max_eq]
    · simp only [paramLimits, limitParam]
      cases ros.getParamDouble (limitsKey (urdf_xml ros URDF_param) joint ++ "max_position") <;>
        simp [minOpt, std_min_eq]
    · simp only [paramLimits, limitParam]
      cases ros.getParamDouble (limitsKey (urdf_xml ros URDF_param) joint ++ "max_velocity") <;>
        simp [minOpt, std_min_eq, std_abs_eq]
    · simp only [paramLimits, limitParam]
      cases ros.getParamDouble
        (limitsKey (urdf_xml ros URDF_param) joint ++ "max_acceleration") <;>
        simp [std_abs_eq]

/-- A value tightened by `minOpt` is at most the value. -/
theorem minOpt_le (a : ℚ) (o : Option ℚ) : minOpt a o ≤ a := by
  cases o with
  | none => exact le_refl a
  | some b => exact min_le_left a b

/-- A value tightened by `maxOpt` is at least the value. -/
theorem le_maxOpt (a : ℚ) (o : Option ℚ) : a ≤ maxOpt a o := by
  cases o with
  | none => exact le_refl a
  | some b => exact le_max_left a b

/-- The arm: the URDF constructor builds `armFacade`. -/
theorem rosArm_built :
    SNS_IK.SNS_IK_urdf rosArm "base" "tip" "robot_description" 1 1 () = some armFacade :=
  rfl
/-! ### The URDF constructor: position bounds -/

/-- C6, refuted as stated: the arm's continuous joint `j2` is the second joint the
URDF constructor processes, the parameter server holds `max_position = 1` for
it, and the upper bound stored for it is `1`, not the largest float. -/
theorem continuous_upper_bound_overridden :
    Processes rosArm "base" "tip" "robot_description" 1 1 () armFacade 1 armContinuous ∧
      armContinuous.type = urdf.JointType.CONTINUOUS ∧
      limitParam rosArm "robot_description" armContinuous "max_position" = some 1 ∧
      armFacade.m_upper_bounds.data[1]? = some 1 ∧
      armFacade.m_upper_bounds.data[1]? ≠ some FLT_MAX :=
  ⟨⟨rfl, _, _, rfl, rfl, rfl⟩, rfl, rfl, by decide, by decide⟩

/-- C6, amended: for a continuous joint the URDF constructor processes, the lower
bound stored is the lowest float, raised to the `min_position` override when one
is present, and the upper bound stored is the largest float, lowered to the
`max_position` override when one is present; with no position override the two
bounds are the two float extremes. -/
theorem SNS_IK_urdf_continuous_bounds {X : Ext} (ros : Ros)
    (base_link tip_link URDF_param : String) (maxtime eps : ℚ) (type : X.SolveType)
    (s : SNS_IK X) (k : Nat) (joint : urdf.Joint)
    (h : Processes ros base_link tip_link URDF_param maxtime eps type s k joint)
    (hc : joint.type = urdf.JointType.CONTINUOUS) :
    s.m_lower_bounds.data[k]? =
      some (maxOpt FLT_LOWEST (limitParam ros URDF_param joint "min_position")) ∧
    s.m_upper_bounds.data[k]? =
      some (minOpt FLT_MAX (limitParam ros URDF_param joint "max_position")) ∧
    (limitParam ros URDF_param joint "min_position" = none →
      s.m_lower_bounds.data[k]? = some FLT_LOWEST) ∧
    (limitParam ros URDF_param joint "max_position" = none →
      s.m_upper_bounds.data[k]? = some FLT_MAX) := by
  obtain ⟨v, hv, h1, h2, _, _⟩ := SNS_IK_urdf_stored ros _ _ _ _ _ _ s k joint h
  obtain ⟨w, hw, w1, w2, _, _⟩ := jointValues_continuous ros URDF_param joint hc
  rw [hv, Option.some.injEq] at hw
  subst hw
  rw [w1] at h1
  rw [w2] at h2
  refine ⟨h1, h2, ?_, ?_⟩
  · intro hn
    rw [hn] at h1
    exact h1
  · intro hn
    rw [hn] at h2
    exact h2

/-- C6 amended, at the arm's continuous joint. -/
theorem SNS_IK_urdf_continuous_bounds_witness :
    Processes rosArm "base" "tip" "robot_description" 1 1 () armFacade 1 armContinuous ∧
      armContinuous.type = urdf.JointType.CONTINUOUS ∧
      (armFacade.m_lower_bounds.data[1]? =
        some (maxOpt FLT_LOWEST
          (limitParam rosArm "robot_description" armContinuous "min_position")) ∧
      armFacade.m_upper_bounds.data[1]? =
        some (minOpt FLT_MAX
          (limitParam rosArm "robot_description" armContinuous "max_position")) ∧
      (limitParam rosArm "robot_description" armContinuous "min_position" = none →
        armFacade.m_lower_bounds.data[1]? = some FLT_LOWEST) ∧
      (limitParam rosArm "robot_description" armContinuous "max_position" = none →
        armFacade.m_upper_bounds.data[1]? = some FLT_MAX)) :=
  ⟨⟨rfl, _, _, rfl, rfl, rfl⟩, rfl,
    @SNS_IK_urdf_continuous_bounds Ext.demo rosArm "base" "tip" "robot_description" 1 1 () armFacade 1
      armContinuous ⟨rfl, _, _, rfl, rfl, rfl⟩ rfl⟩

/-- C7: for a joint the URDF constructor processes that is not continuous and has
base limits, the upper bound stored is the minimum of the base upper limit, the
soft upper limit when the joint has a safety controller, and the `max_position`
override when one is present; the lower bound stored is the maximum of the base
lower limit, the soft lower limit when there is one, and the `min_position`
override when one is present.  With no safety controller and no position
override the bounds stored are the base bounds. -/
theorem SNS_IK_urdf_limited_bounds {X : Ext} (ros : Ros)
    (base_link tip_link URDF_param : String) (maxtime eps : ℚ) (type : X.SolveType)
    (s : SNS_IK X) (k : Nat) (joint : urdf.Joint) (limits : urdf.JointLimits)
    (h : Processes ros base_link tip_link URDF_param maxtime eps type s k joint)
    (hc : joint.type ≠ urdf.JointType.CONTINUOUS) (hl : joint.limits = some limits) :
    s.m_upper_bounds.data[k]? =
      some (minOpt (minOpt limits.upper (joint.safety.map fun sf => sf.soft_upper_limit))
        (limitParam ros URDF_param joint "max_position")) ∧
    s.m_lower_bounds.data[k]? =
      some (maxOpt (maxOpt limits.lower (joint.safety.map fun sf => sf.soft_lower_limit))
        (limitParam ros URDF_param joint "min_position")) ∧
    (joint.safety = none → limitParam ros URDF_param joint "max_position" = none →
      limitParam ros URDF_param joint "min_position" = none →
      s.m_upper_bounds.data[k]? = some limits.upper ∧
      s.m_lower_bounds.data[k]? = some limits.lower) := by
  obtain ⟨v, hv, h1, h2, _, _⟩ := SNS_IK_urdf_stored ros _ _ _ _ _ _ s k joint h
  obtain ⟨w, hw, w1, w2, _, _⟩ := jointValues_limited ros URDF_param joint limits hc hl
  rw [hv, Option.some.injEq] at hw
  subst hw
  rw [w1] at h1
  rw [w2] at h2
  refine ⟨h2, h1, ?_⟩
  intro hs hmax hmin
  rw [hs, hmax] at h2
  rw [hs, hmin] at h1
  exact ⟨h2, h1⟩

/-- C7, at the arm's revolute joint: base `[-4, 4]`, soft limits `[-3, 3]`,
`max_position = 2`. -/
theorem SNS_IK_urdf_limited_bounds_witness :
    Processes rosArm "base" "tip" "robot_description" 1 1 () armFacade 0 armRevolute ∧
      armRevolute.type ≠ urdf.JointType.CONTINUOUS ∧
      armRevolute.limits = some ⟨-4, 4, 10, 6⟩ ∧
      (armFacade.m_upper_bounds.data[0]? =
        some (minOpt (minOpt (4 : ℚ) (armRevolute.safety.map fun sf => sf.soft_upper_limit))
          (limitParam rosArm "robot_description" armRevolute "max_position")) ∧
      armFacade.m_lower_bounds.data[0]? =
        some (maxOpt (maxOpt (-4 : ℚ) (armRevolute.safety.map fun sf => sf.soft_lower_limit))
          (limitParam rosArm "robot_description" armRevolute "min_position")) ∧
      (armRevolute.safety = none →
        limitParam rosArm "robot_description" armRevolute "max_position" = none →
        limitParam rosArm "robot_description" armRevolute "min_position" = none →
        armFacade.m_upper_bounds.data[0]? = some (4 : ℚ) ∧
        armFacade.m_lower_bounds.data[0]? = some (-4 : ℚ))) :=
  ⟨⟨rfl, _, _, rfl, rfl, rfl⟩, by decide, rfl,
    @SNS_IK_urdf_limited_bounds Ext.demo rosArm "base" "tip" "robot_description" 1 1 () armFacade 0
      armRevolute ⟨-4, 4, 10, 6⟩ ⟨rfl, _, _, rfl, rfl, rfl⟩ (by decide) rfl⟩

/-- C8: for a joint the URDF constructor processes that is not continuous and has
base limits, whatever safety limits and position overrides are present, the
lower bound stored is at least the base lower limit and the upper bound stored is
at most the base upper limit. -/
theorem SNS_IK_urdf_bounds_tighten {X : Ext} (ros : Ros)
    (base_link tip_link URDF_param : String) (maxtime eps : ℚ) (type : X.SolveType)
    (s : SNS_IK X) (k : Nat) (joint : urdf.Joint) (limits : urdf.JointLimits)
    (h : Processes ros base_link tip_link URDF_param maxtime eps type s k joint)
    (hc : joint.type ≠ urdf.JointType.CONTINUOUS) (hl : joint.limits = some limits) :
    ∃ lower upper, s.m_lower_bounds.data[k]? = some lower ∧
      s.m_upper_bounds.data[k]? = some upper ∧
      lower ≥ limits.lower ∧ upper ≤ limits.upper := by
  obtain ⟨v, hv, h1, h2, _, _⟩ := SNS_IK_urdf_stored ros _ _ _ _ _ _ s k joint h
  obtain ⟨w, hw, w1, w2, _, _⟩ := jointValues_limited ros URDF_param joint limits hc hl
  rw [hv, Option.some.injEq] at hw
  subst hw
  refine ⟨_, _, h1, h2, ?_, ?_⟩
  · rw [w1]
    exact le_trans (le_maxOpt _ _) (le_maxOpt _ _)
  · rw [w2]
    exact le_trans (minOpt_le _ _) (minOpt_le _ _)

/-- C8, at the arm's revolute joint. -/
theorem SNS_IK_urdf_bounds_tighten_witness :
    Processes rosArm "base" "tip" "robot_description" 1 1 () armFacade 0 armRevolute ∧
      armRevolute.type ≠ urdf.JointType.CONTINUOUS ∧
      armRevolute.limits = some ⟨-4, 4, 10, 6⟩ ∧
      ∃ lower upper, armFacade.m_lower_bounds.data[0]? = some lower ∧
        armFacade.m_upper_bounds.data[0]? = some upper ∧
        lower ≥ (-4 : ℚ) ∧ upper ≤ (4 : ℚ) :=
  ⟨⟨rfl, _, _, rfl, rfl, rfl⟩, by decide, rfl,
    @SNS_IK_urdf_bounds_tighten Ext.demo rosArm "base" "tip" "robot_description" 1 1 () armFacade 0
      armRevolute ⟨-4, 4, 10, 6⟩ ⟨rfl, _, _, rfl, rfl, rfl⟩ (by decide) rfl⟩

/-- C9: for a joint the URDF constructor processes that is not continuous and has
base limits, when a `max_position` override is present and strictly below the
upper bound resolved from the model (the minimum of the base upper limit and the
soft upper limit when there is a safety controller, the base upper limit
otherwise), the upper bound stored is that override. -/
theorem SNS_IK_urdf_max_position_exact {X : Ext} (ros : Ros)
    (base_link tip_link URDF_param : String) (maxtime eps : ℚ) (type : X.SolveType)
    (s : SNS_IK X) (k : Nat) (joint : urdf.Joint) (limits : urdf.JointLimits) (ul : ℚ)
    (h : Processes ros base_link tip_link URDF_param maxtime eps type s k joint)
    (hc : joint.type ≠ urdf.JointType.CONTINUOUS) (hl : joint.limits = some limits)
    (hp : limitParam ros URDF_param joint "max_position" = some ul)
    (hlt : ul < minOpt limits.upper (joint.safety.map fun sf => sf.soft_upper_limit)) :
    s.m_upper_bounds.data[k]? = some ul := by
  obtain ⟨v, hv, _, h2, _, _⟩ := SNS_IK_urdf_stored ros _ _ _ _ _ _ s k joint h
  obtain ⟨w, hw, _, w2, _, _⟩ := jointValues_limited ros URDF_param joint limits hc hl
  rw [hv, Option.some.injEq] at hw
  subst hw
  rw [h2, w2, hp]
  exact congrArg some (min_eq_right hlt.le)

/-- C9, at the arm's revolute joint: the override `2` is below `min 4 3`. -/
theorem SNS_IK_urdf_max_position_exact_witness :
    Processes rosArm "base" "tip" "robot_description" 1 1 () armFacade 0 armRevolute ∧
      armRevolute.type ≠ urdf.JointType.CONTINUOUS ∧
      armRevolute.limits = some ⟨-4, 4, 10, 6⟩ ∧
      limitParam rosArm "robot_description" armRevolute "max_position" = some 2 ∧
      (2 : ℚ) < minOpt (4 : ℚ) (armRevolute.safety.map fun sf => sf.soft_upper_limit) ∧
      armFacade.m_upper_bounds.data[0]? = some 2 :=
  ⟨⟨rfl, _, _, rfl, rfl, rfl⟩, by decide, rfl, rfl, by decide,
    @SNS_IK_urdf_max_position_exact Ext.demo rosArm "base" "tip" "robot_description" 1 1 () armFacade 0
      armRevolute ⟨-4, 4, 10, 6⟩ 2 ⟨rfl, _, _, rfl, rfl, rfl⟩ (by decide) rfl rfl (by decide)⟩

/-! ### The URDF constructor: velocity -/

/-- For a joint the URDF constructor processes that is not continuous and has
base limits, the velocity stored is the magnitude of the base velocity, lowered
to the magnitude of the `max_velocity` override when one is present. -/
theorem SNS_IK_urdf_limited_velocity {X : Ext} (ros : Ros)
    (base_link tip_link URDF_param : String) (maxtime eps : ℚ) (type : X.SolveType)
    (s : SNS_IK X) (k : Nat) (joint : urdf.Joint) (limits : urdf.JointLimits)
    (h : Processes ros base_link tip_link URDF_param maxtime eps type s k joint)
    (hc : joint.type ≠ urdf.JointType.CONTINUOUS) (hl : joint.limits = some limits) :
    s.m_velocity.data[k]? = some (minOpt |limits.velocity|
      ((limitParam ros URDF_param joint "max_velocity").map fun vel => |vel|)) := by
  obtain ⟨v, hv, _, _, h3, _⟩ := SNS_IK_urdf_stored ros _ _ _ _ _ _ s k joint h
  obtain ⟨w, hw, _, _, w3, _⟩ := jointValues_limited ros URDF_param joint limits hc hl
  rw [hv, Option.some.injEq] at hw
  subst hw
  rw [h3, w3]

/-- For a continuous joint the URDF constructor processes, the velocity stored is
zero: line 86, which reads the base velocity, is in the branch of the joints that
are not continuous, and line 101 can only lower the zero of line 72. -/
theorem SNS_IK_urdf_continuous_velocity {X : Ext} (ros : Ros)
    (base_link tip_link URDF_param : String) (maxtime eps : ℚ) (type : X.SolveType)
    (s : SNS_IK X) (k : Nat) (joint : urdf.Joint)
    (h : Processes ros base_link tip_link URDF_param maxtime eps type s k joint)
    (hc : joint.type = urdf.JointType.CONTINUOUS) :
    s.m_velocity.data[k]? = some 0 := by
  obtain ⟨v, hv, _, _, h3, _⟩ := SNS_IK_urdf_stored ros _ _ _ _ _ _ s k joint h
  obtain ⟨w, hw, _, _, w3, _⟩ := jointValues_continuous ros URDF_param joint hc
  rw [hv, Option.some.injEq] at hw
  subst hw
  rw [h3, w3]

/-- C10, the code at the failing input: the arm's continuous joint `j2` has base
velocity limit `5` and no `max_velocity` override, and the velocity stored for it
is `0`, not `5`. -/
theorem continuous_velocity_zero :
    Processes rosArm "base" "tip" "robot_description" 1 1 () armFacade 1 armContinuous ∧
      armContinuous.type = urdf.JointType.CONTINUOUS ∧
      armContinuous.limits = some ⟨0, 0, 10, 5⟩ ∧
      limitParam rosArm "robot_description" armContinuous "max_velocity" = none ∧
      armFacade.m_velocity.data[1]? = some 0 ∧
      armFacade.m_velocity.data[1]? ≠ some |(5 : ℚ)| :=
  ⟨⟨rfl, _, _, rfl, rfl, rfl⟩, rfl, rfl, rfl, by decide, by
    rw [abs_of_pos (by norm_num : (0 : ℚ) < 5)]; decide⟩

/-! ### Objects the constructors build -/

/-- The member function `initialize()` ends on every object that has no tags yet:
no read of the loop falls outside the bound arrays. -/
theorem initialise_total {X : Ext} (s : SNS_IK X) (hty : s.m_types = []) :
    ∃ s', s.initialise = some s' := by
  unfold SNS_IK.initialise ROS_ASSERT_MSG
  simp only [beq_iff_eq]
  split_ifs with h1 h2 h3 h4
  · obtain ⟨ts, hrun, _⟩ :=
      populateTypes_spec s.m_lower_bounds s.m_upper_bounds s.m_chain.segments s.m_types
        (by rw [hty, ← h1]; simp [KDL.Chain.getNrOfJoints])
        (by rw [hty, ← h2]; simp [KDL.Chain.getNrOfJoints])
    rw [hrun]
    simp only []
    split_ifs
    · exact ⟨_, rfl⟩
    · exact ⟨_, rfl⟩
  all_goals exact ⟨_, rfl⟩

/-- When `initialize()` sets `m_initialized`, both solver handles are set. -/
theorem initialise_solvers {X : Ext} (s s' : SNS_IK X) (hi : s.m_initialized = false)
    (h : s.initialise = some s') (hr : s'.m_initialized = true) :
    (∃ vel, s'.m_ik_vel_solver = some vel) ∧ ∃ pos, s'.m_ik_pos_solver = some pos := by
  unfold SNS_IK.initialise ROS_ASSERT_MSG at h
  simp only [beq_iff_eq] at h
  split_ifs at h with h1 h2 h3 h4
  · cases hp : populateTypes s.m_lower_bounds s.m_upper_bounds s.m_chain.segments s.m_types with
    | none => simp [hp] at h
    | some ts =>
      simp only [hp] at h
      split_ifs at h with h5
      · simp only [Option.some.injEq] at h
        subst h
        exact ⟨⟨_, rfl⟩, ⟨_, rfl⟩⟩
      · simp only [Option.some.injEq] at h
        subst h
        simp [hi] at hr
  all_goals
    simp only [Option.some.injEq] at h
    subst h
    simp [hi] at hr

/-- The explicit-bounds constructor always builds an object, and when the object
is initialized its position-solver handle points to a solver. -/
theorem SNS_IK_chain_built {X : Ext} (chain : KDL.Chain)
    (q_min q_max v_max a_max : KDL.JntArray) (maxtime eps : ℚ) (type : X.SolveType) :
    ∃ s : SNS_IK X, SNS_IK.SNS_IK_chain chain q_min q_max v_max a_max maxtime eps type = some s ∧
      (s.m_initialized = true → ∃ pos, s.m_ik_pos_solver = some pos) := by
  obtain ⟨s, hs⟩ := initialise_total
    ({ m_initialized := false, m_eps := eps, m_maxtime := maxtime, m_solvetype := type,
       m_chain := chain, m_lower_bounds := q_min, m_upper_bounds := q_max, m_velocity := v_max,
       m_acceleration := a_max, m_types := [], m_ik_vel_solver := none,
       m_ik_pos_solver := none, trace := [] } : SNS_IK X) rfl
  exact ⟨s, hs, fun hr => (initialise_solvers _ s rfl hs hr).2⟩

/-- An object the URDF constructor builds, when initialized, has a position-solver
handle that points to a solver. -/
theorem SNS_IK_urdf_solver {X : Ext} (ros : Ros) (base_link tip_link URDF_param : String)
    (maxtime eps : ℚ) (type : X.SolveType) (s : SNS_IK X)
    (h : SNS_IK.SNS_IK_urdf ros base_link tip_link URDF_param maxtime eps type = some s)
    (hr : s.m_initialized = true) : ∃ pos, s.m_ik_pos_solver = some pos := by
  unfold SNS_IK.SNS_IK_urdf at h
  cases hx : ros.getParamString (full_urdf_xml ros URDF_param) with
  | none =>
    simp only [hx, Option.some.injEq] at h
    subst h
    simp [SNS_IK.blank] at hr
  | some xml =>
    simp only [hx] at h
    cases ht : ros.treeFromUrdfModel (robot_model ros URDF_param) with
    | none =>
      simp only [ht, Option.some.injEq] at h
      subst h
      simp [SNS_IK.blank] at hr
    | some tree =>
      simp only [ht] at h
      split at h
      · simp at h
      · exact (initialise_solvers _ s rfl h hr).2

/-! ### The URDF constructor: acceleration, and the signs of the limits -/

/-- Lines 70-108: whatever the model says, the acceleration computed for a joint
is the magnitude of the `max_acceleration` override, or zero without one; and
the velocity and the acceleration computed are never negative. -/
theorem jointValues_acceleration (ros : Ros) (URDF_param : String) (joint : urdf.Joint)
    (v : JointValues) (h : jointValues ros (urdf_xml ros URDF_param) joint = some v) :
    v.acceleration = |(limitParam ros URDF_param joint "max_acceleration").getD 0| ∧
    0 ≤ v.velocity ∧ 0 ≤ v.acceleration := by
  unfold jointValues at h
  cases hm : modelLimits joint with
  | none => simp [hm] at h
  | some m =>
    simp only [hm, Option.some.injEq] at h
    subst h
    have hm0 : 0 ≤ m.2.2 := by
      unfold modelLimits at hm
      split_ifs at hm with hc
      · simp only [Option.some.injEq] at hm
        subst hm
        exact le_refl _
      · cases hl : joint.limits with
        | none => simp [hl] at hm
        | some limits =>
          cases hs : joint.safety with
          | none =>
            simp only [hl, hs, Option.some.injEq] at hm
            subst hm
            simp [std_abs_eq]
          | some sf =>
            simp only [hl, hs, Option.some.injEq] at hm
            subst hm
            simp [std_abs_eq]
    have hacc : (paramLimits ros (urdf_xml ros URDF_param) joint m).acceleration =
        |(limitParam ros URDF_param joint "max_acceleration").getD 0| := by
      simp only [paramLimits, limitParam]
      cases ros.getParamDouble
        (limitsKey (urdf_xml ros URDF_param) joint ++ "max_acceleration") <;>
        simp [std_abs_eq]
    refine ⟨hacc, ?_, ?_⟩
    · simp only [paramLimits]
      cases ros.getParamDouble (limitsKey (urdf_xml ros URDF_param) joint ++ "max_velocity") with
      | none => exact hm0
      | some vel =>
        simp only [std_min_eq, std_abs_eq]
        exact le_min hm0 (abs_nonneg vel)
    · rw [hacc]
      exact abs_nonneg _

/-- C11: for a joint the URDF constructor processes, the acceleration stored is
the magnitude of the `max_acceleration` override when one is present and zero
when none is; no limit of the model and no safety value enters. -/
theorem SNS_IK_urdf_acceleration {X : Ext} (ros : Ros)
    (base_link tip_link URDF_param : String) (maxtime eps : ℚ) (type : X.SolveType)
    (s : SNS_IK X) (k : Nat) (joint : urdf.Joint)
    (h : Processes ros base_link tip_link URDF_param maxtime eps type s k joint) :
    (∀ a, limitParam ros URDF_param joint "max_acceleration" = some a →
      s.m_acceleration.data[k]? = some |a|) ∧
    (limitParam ros URDF_param joint "max_acceleration" = none →
      s.m_acceleration.data[k]? = some 0) := by
  obtain ⟨v, hv, _, _, _, h4⟩ := SNS_IK_urdf_stored ros _ _ _ _ _ _ s k joint h
  have hacc := (jointValues_acceleration ros URDF_param joint v hv).1
  rw [hacc] at h4
  refine ⟨?_, ?_⟩
  · intro a ha
    rw [ha] at h4
    exact h4
  · intro hn
    rw [hn] at h4
    simpa using h4

/-- The arm with crossed overrides: the URDF constructor builds `crossedFacade`. -/
theorem rosCrossed_built :
    SNS_IK.SNS_IK_urdf rosCrossed "base" "tip" "robot_description" 1 1 () = some crossedFacade :=
  rfl

/-- C11, at the arm's revolute joint with `max_acceleration = -7`. -/
theorem SNS_IK_urdf_acceleration_witness :
    Processes rosCrossed "base" "tip" "robot_description" 1 1 () crossedFacade 0 armRevolute ∧
    limitParam rosCrossed "robot_description" armRevolute "max_acceleration" = some (-7) ∧
    (∀ a, limitParam rosCrossed "robot_description" armRevolute "max_acceleration" = some a →
      crossedFacade.m_acceleration.data[0]? = some |a|) ∧
    (limitParam rosCrossed "robot_description" armRevolute "max_acceleration" = none →
      crossedFacade.m_acceleration.data[0]? = some 0) :=
  ⟨⟨rfl, _, _, rfl, rfl, rfl⟩, rfl,
    @SNS_IK_urdf_acceleration Ext.demo rosCrossed "base" "tip" "robot_description" 1 1 ()
      crossedFacade 0 armRevolute ⟨rfl, _, _, rfl, rfl, rfl⟩⟩

/-- C12, refuted as stated: the arm's revolute joint has base limits `[-4, 4]`
and soft limits `[-3, 3]`; with a `max_position` override of `-5` the URDF
constructor stores lower bound `-3` and upper bound `-5` for it. -/
theorem crossed_bounds_stored :
    Processes rosCrossed "base" "tip" "robot_description" 1 1 () crossedFacade 0 armRevolute ∧
    crossedFacade.m_lower_bounds.data[0]? = some (-3 : ℚ) ∧
    crossedFacade.m_upper_bounds.data[0]? = some (-5 : ℚ) ∧
    ¬ ((-3 : ℚ) ≤ -5) :=
  ⟨⟨rfl, _, _, rfl, rfl, rfl⟩, by decide, by decide, by decide⟩

/-- C12, amended: for a joint the URDF constructor processes, the bounds stored
satisfy `lower <= upper` exactly when every lower-bound candidate that is
present is at most every upper-bound candidate that is present. -/
theorem SNS_IK_urdf_bounds_ordered {X : Ext} (ros : Ros)
    (base_link tip_link URDF_param : String) (maxtime eps : ℚ) (type : X.SolveType)
    (s : SNS_IK X) (k : Nat) (joint : urdf.Joint)
    (h : Processes ros base_link tip_link URDF_param maxtime eps type s k joint) :
    ∃ lower upper, s.m_lower_bounds.data[k]? = some lower ∧
      s.m_upper_bounds.data[k]? = some upper ∧
      (lower ≤ upper ↔ ∀ a ∈ lowerCandidates ros URDF_param joint,
        ∀ b ∈ upperCandidates ros URDF_param joint, a ≤ b) := by
  obtain ⟨v, hv, h1, h2, _, _⟩ := SNS_IK_urdf_stored ros _ _ _ _ _ _ s k joint h
  refine ⟨_, _, h1, h2, ?_⟩
  by_cases hc : joint.type = urdf.JointType.CONTINUOUS
  · obtain ⟨w, hw, w1, w2, _, _⟩ := jointValues_continuous ros URDF_param joint hc
    rw [hv, Option.some.injEq] at hw
    subst hw
    rw [w1, w2]
    simp only [lowerCandidates, upperCandidates, hc, if_true]
    cases limitParam ros URDF_param joint "min_position" <;>
      cases limitParam ros URDF_param joint "max_position" <;>
      simp [maxOpt, minOpt]
    tauto
  · cases hl : joint.limits with
    | none => simp [jointValues, modelLimits, hc, hl] at hv
    | some limits =>
      obtain ⟨w, hw, w1, w2, _, _⟩ := jointValues_limited ros URDF_param joint limits hc hl
      rw [hv, Option.some.injEq] at hw
      subst hw
      rw [w1, w2]
      simp only [lowerCandidates, upperCandidates, hc, if_false, hl]
      cases joint.safety <;>
        cases limitParam ros URDF_param joint "min_position" <;>
        cases limitParam ros URDF_param joint "max_position" <;>
        simp [maxOpt, minOpt] <;> tauto

/-- C12 amended, at the arm's revolute joint of `rosArm`: bounds `[-3, 2]`. -/
theorem SNS_IK_urdf_bounds_ordered_witness :
    Processes rosArm "base" "tip" "robot_description" 1 1 () armFacade 0 armRevolute ∧
    ∃ lower upper, armFacade.m_lower_bounds.data[0]? = some lower ∧
      armFacade.m_upper_bounds.data[0]? = some upper ∧
      (lower ≤ upper ↔ ∀ a ∈ lowerCandidates rosArm "robot_description" armRevolute,
        ∀ b ∈ upperCandidates rosArm "robot_description" armRevolute, a ≤ b) :=
  ⟨⟨rfl, _, _, rfl, rfl, rfl⟩,
    @SNS_IK_urdf_bounds_ordered Ext.demo rosArm "base" "tip" "robot_description" 1 1 ()
      armFacade 0 armRevolute ⟨rfl, _, _, rfl, rfl, rfl⟩⟩

/-- A write of a value that is not negative keeps an array free of negative
entries. -/
theorem JntArray_write_nonneg (a a' : KDL.JntArray) (i : Nat) (v : ℚ)
    (h : a.write i v = some a') (hv : 0 ≤ v) (ha : ∀ x ∈ a.data, 0 ≤ x) :
    ∀ x ∈ a'.data, 0 ≤ x := by
  unfold KDL.JntArray.write at h
  split_ifs at h with hi
  simp only [Option.some.injEq] at h
  subst h
  intro x hx
  rcases List.mem_or_eq_of_mem_set hx with hx | hx
  · exact ha x hx
  · rw [hx]
    exact hv

/-- The loop of the URDF constructor keeps the velocity and acceleration arrays
free of negative entries. -/
theorem urdfLoop_nonneg (ros : Ros) (model : urdf.Model) (URDF_param : String) :
    ∀ (segs : List KDL.Segment) (joint_num : Nat) (b : Bounds) (r : Nat × Bounds),
      urdfLoop ros model (urdf_xml ros URDF_param) segs joint_num b = some r →
      (∀ x ∈ b.m_velocity.data, 0 ≤ x) → (∀ x ∈ b.m_acceleration.data, 0 ≤ x) →
      (∀ x ∈ r.2.m_velocity.data, 0 ≤ x) ∧ (∀ x ∈ r.2.m_acceleration.data, 0 ≤ x) := by
  intro segs
  induction segs with
  | nil =>
    intro joint_num b r h hv ha
    simp only [urdfLoop, Option.some.injEq] at h
    subst h
    exact ⟨hv, ha⟩
  | cons seg rest ih =>
    intro joint_num b r h hv ha
    unfold urdfLoop at h
    cases hj : model.getJoint seg.getJoint.getName with
    | none => simp [hj] at h
    | some joint =>
      simp only [hj] at h
      by_cases ht : joint.type ≠ urdf.JointType.UNKNOWN ∧ joint.type ≠ urdf.JointType.FIXED
      · rw [if_pos ht] at h
        cases hjv : jointValues ros (urdf_xml ros URDF_param) joint with
        | none => simp [hjv] at h
        | some v =>
          simp only [hjv] at h
          cases hb : b.store joint_num v with
          | none => simp [hb] at h
          | some b1 =>
            simp only [hb] at h
            obtain ⟨_, hv0, ha0⟩ := jointValues_acceleration ros URDF_param joint v hjv
            unfold Bounds.store at hb
            cases h1 : b.m_lower_bounds.write joint_num v.lower with
            | none => simp [h1] at hb
            | some lo =>
              cases h2 : b.m_upper_bounds.write joint_num v.upper with
              | none => simp [h1, h2] at hb
              | some up =>
                cases h3 : b.m_velocity.write joint_num v.velocity with
                | none => simp [h1, h2, h3] at hb
                | some ve =>
                  cases h4 : b.m_acceleration.write joint_num v.acceleration with
                  | none => simp [h1, h2, h3, h4] at hb
                  | some ac =>
                    simp only [h1, h2, h3, h4, Option.some.injEq] at hb
                    subst hb
                    exact ih (joint_num + 1) _ r h
                      (JntArray_write_nonneg _ _ _ _ h3 hv0 hv)
                      (JntArray_write_nonneg _ _ _ _ h4 ha0 ha)
      · rw [if_neg ht] at h
        exact ih joint_num b r h hv ha

/-- C13: in every object the URDF constructor builds, whatever the signs of the
base velocity and of the `max_velocity` and `max_acceleration` overrides, no
entry of the velocity array and no entry of the acceleration array is
negative. -/
theorem SNS_IK_urdf_nonneg {X : Ext} (ros : Ros) (base_link tip_link URDF_param : String)
    (maxtime eps : ℚ) (type : X.SolveType) (s : SNS_IK X)
    (h : SNS_IK.SNS_IK_urdf ros base_link tip_link URDF_param maxtime eps type = some s) :
    (∀ x ∈ s.m_velocity.data, 0 ≤ x) ∧ (∀ x ∈ s.m_acceleration.data, 0 ≤ x) := by
  unfold SNS_IK.SNS_IK_urdf at h
  cases hx : ros.getParamString (full_urdf_xml ros URDF_param) with
  | none =>
    simp only [hx, Option.some.injEq] at h
    subst h
    simp [SNS_IK.blank]
  | some xml =>
    simp only [hx] at h
    cases ht : ros.treeFromUrdfModel (robot_model ros URDF_param) with
    | none =>
      simp only [ht, Option.some.injEq] at h
      subst h
      simp [SNS_IK.blank]
    | some tree =>
      simp only [ht] at h
      cases hl : urdfLoop ros (robot_model ros URDF_param) (urdf_xml ros URDF_param)
          (tree.getChain base_link tip_link).2.segments 0
          ⟨KDL.JntArray.resize (tree.getChain base_link tip_link).2.getNrOfJoints,
           KDL.JntArray.resize (tree.getChain base_link tip_link).2.getNrOfJoints,
           KDL.JntArray.resize (tree.getChain base_link tip_link).2.getNrOfJoints,
           KDL.JntArray.resize (tree.getChain base_link tip_link).2.getNrOfJoints⟩ with
      | none => simp [hl] at h
      | some r =>
        simp only [hl] at h
        obtain ⟨_, _, e3, e4, _⟩ := initialise_bounds _ _ h
        have hz : ∀ n : Nat, ∀ x ∈ (KDL.JntArray.resize n).data, (0 : ℚ) ≤ x := by
          intro n x hx
          simp only [KDL.JntArray.resize] at hx
          rw [List.eq_of_mem_replicate hx]
        obtain ⟨hv, ha⟩ := urdfLoop_nonneg ros _ URDF_param _ _ _ _ hl (hz _) (hz _)
        rw [e3, e4]
        exact ⟨hv, ha⟩

/-- C13, at the arm with the parameter server `rosArm`, where the velocity
override of `j1` is `-5`. -/
theorem SNS_IK_urdf_nonneg_witness :
    SNS_IK.SNS_IK_urdf rosArm "base" "tip" "robot_description" 1 1 () = some armFacade ∧
    (∀ x ∈ armFacade.m_velocity.data, 0 ≤ x) ∧ (∀ x ∈ armFacade.m_acceleration.data, 0 ≤ x) :=
  ⟨rfl, @SNS_IK_urdf_nonneg Ext.demo rosArm "base" "tip" "robot_description" 1 1 () armFacade rfl⟩

/-! ### Readiness -/

/-- The member function `initialize()` on an object that is not initialized and
has no tags yet: it ends, it sets `m_initialized` exactly when the four bound
arrays have the length of the chain's number of joints, and then the tags have
that length too. -/
theorem initialise_ready_iff {X : Ext} (s : SNS_IK X) (hi : s.m_initialized = false)
    (hty : s.m_types = []) :
    ∃ s', s.initialise = some s' ∧
      (s'.m_initialized = true ↔
        s.m_lower_bounds.data.length = s.m_chain.getNrOfJoints ∧
        s.m_upper_bounds.data.length = s.m_chain.getNrOfJoints ∧
        s.m_velocity.data.length = s.m_chain.getNrOfJoints ∧
        s.m_acceleration.data.length = s.m_chain.getNrOfJoints) ∧
      (s'.m_initialized = true → s'.m_types.length = s.m_chain.getNrOfJoints) := by
  unfold SNS_IK.initialise ROS_ASSERT_MSG
  simp only [beq_iff_eq]
  by_cases h1 : s.m_chain.getNrOfJoints = s.m_lower_bounds.data.length
  · by_cases h2 : s.m_chain.getNrOfJoints = s.m_upper_bounds.data.length
    · by_cases h3 : s.m_chain.getNrOfJoints = s.m_velocity.data.length
      · by_cases h4 : s.m_chain.getNrOfJoints = s.m_acceleration.data.length
        · obtain ⟨ts, hrun, hlen, _⟩ :=
            populateTypes_spec s.m_lower_bounds s.m_upper_bounds s.m_chain.segments s.m_types
              (by rw [hty, ← h1]; simp [KDL.Chain.getNrOfJoints])
              (by rw [hty, ← h2]; simp [KDL.Chain.getNrOfJoints])
          have hlen' : ts.length = s.m_lower_bounds.data.length := by
            rw [hlen, hty, ← h1]; simp [KDL.Chain.getNrOfJoints]
          rw [if_pos h1, if_pos h2, if_pos h3, if_pos h4, hrun]
          simp only []
          rw [if_pos hlen']
          exact ⟨_, rfl, ⟨fun _ => ⟨h1.symm, h2.symm, h3.symm, h4.symm⟩, fun _ => rfl⟩,
            fun _ => hlen'.trans h1.symm⟩
        · rw [if_pos h1, if_pos h2, if_pos h3, if_neg h4]
          refine ⟨_, rfl, ⟨fun hr => ?_, fun hh => absurd hh.2.2.2.symm h4⟩, fun hr => ?_⟩ <;>
            simp [hi] at hr
      · rw [if_pos h1, if_pos h2, if_neg h3]
        refine ⟨_, rfl, ⟨fun hr => ?_, fun hh => absurd hh.2.2.1.symm h3⟩, fun hr => ?_⟩ <;>
          simp [hi] at hr
    · rw [if_pos h1, if_neg h2]
      refine ⟨_, rfl, ⟨fun hr => ?_, fun hh => absurd hh.2.1.symm h2⟩, fun hr => ?_⟩ <;>
        simp [hi] at hr
  · rw [if_neg h1]
    refine ⟨_, rfl, ⟨fun hr => ?_, fun hh => absurd hh.1.symm h1⟩, fun hr => ?_⟩ <;>
      simp [hi] at hr

/-- C15: when `q_min`, `q_max`, `v_max` and `a_max` all have the length of the
chain's number of joints, the explicit-bounds constructor builds an object whose
`m_initialized` is true and whose four bound arrays are `q_min`, `q_max`, `v_max`
and `a_max`. -/
theorem SNS_IK_chain_ready {X : Ext} (chain : KDL.Chain)
    (q_min q_max v_max a_max : KDL.JntArray) (maxtime eps : ℚ) (type : X.SolveType)
    (h1 : q_min.data.length = chain.getNrOfJoints)
    (h2 : q_max.data.length = chain.getNrOfJoints)
    (h3 : v_max.data.length = chain.getNrOfJoints)
    (h4 : a_max.data.length = chain.getNrOfJoints) :
    ∃ s : SNS_IK X, SNS_IK.SNS_IK_chain chain q_min q_max v_max a_max maxtime eps type = some s ∧
      s.m_initialized = true ∧ s.m_lower_bounds = q_min ∧ s.m_upper_bounds = q_max ∧
      s.m_velocity = v_max ∧ s.m_acceleration = a_max := by
  obtain ⟨s, hs, hiff, _⟩ := initialise_ready_iff
    ({ m_initialized := false, m_eps := eps, m_maxtime := maxtime, m_solvetype := type,
       m_chain := chain, m_lower_bounds := q_min, m_upper_bounds := q_max, m_velocity := v_max,
       m_acceleration := a_max, m_types := [], m_ik_vel_solver := none,
       m_ik_pos_solver := none, trace := [] } : SNS_IK X) rfl rfl
  obtain ⟨e1, e2, e3, e4, _⟩ := initialise_bounds _ _ hs
  exact ⟨s, hs, hiff.2 ⟨h1, h2, h3, h4⟩, e1, e2, e3, e4⟩

/-- C15, at a chain with one joint and arrays of length one. -/
theorem SNS_IK_chain_ready_witness :
    q_min_demo.data.length = chainRotFixed.getNrOfJoints ∧
    q_max_demo.data.length = chainRotFixed.getNrOfJoints ∧
    v_max_demo.data.length = chainRotFixed.getNrOfJoints ∧
    a_max_demo.data.length = chainRotFixed.getNrOfJoints ∧
    ∃ s : SNS_IK Ext.demo,
      SNS_IK.SNS_IK_chain chainRotFixed q_min_demo q_max_demo v_max_demo a_max_demo 1 1 () =
        some s ∧
      s.m_initialized = true ∧ s.m_lower_bounds = q_min_demo ∧ s.m_upper_bounds = q_max_demo ∧
      s.m_velocity = v_max_demo ∧ s.m_acceleration = a_max_demo :=
  ⟨by decide, by decide, by decide, by decide,
    @SNS_IK_chain_ready Ext.demo chainRotFixed q_min_demo q_max_demo v_max_demo a_max_demo 1 1 ()
      (by decide) (by decide) (by decide) (by decide)⟩

/-- C14, refuted as stated, in both directions.  The explicit-bounds constructor,
given a chain with one joint and arrays of length one with lower bound `1`,
upper bound `-1`, velocity `-3` and acceleration `-4`, builds an object whose
`m_initialized` is true.  The URDF constructor, without a robot description,
builds an object whose arrays, tags and chain are all empty, so that every
invariant holds, and whose `m_initialized` is false. -/
theorem readiness_not_iff_invariants :
    (∃ s : SNS_IK Ext.demo,
      SNS_IK.SNS_IK_chain chainRotFixed ⟨[1]⟩ ⟨[-1]⟩ ⟨[-3]⟩ ⟨[-4]⟩ 1 1 () = some s ∧
      s.m_initialized = true ∧
      s.m_lower_bounds.data = [1] ∧ s.m_upper_bounds.data = [-1] ∧ ¬ ((1 : ℚ) ≤ -1) ∧
      s.m_velocity.data = [-3] ∧ ¬ ((0 : ℚ) ≤ -3) ∧
      s.m_acceleration.data = [-4] ∧ ¬ ((0 : ℚ) ≤ -4)) ∧
    (∃ s : SNS_IK Ext.demo,
      SNS_IK.SNS_IK_urdf rosNoDescription "base" "tip" "robot_description" 1 1 () = some s ∧
      s.m_initialized = false ∧ s.m_chain.getNrOfJoints = 0 ∧
      s.m_lower_bounds.data = [] ∧ s.m_upper_bounds.data = [] ∧ s.m_velocity.data = [] ∧
      s.m_acceleration.data = [] ∧ s.m_types = []) :=
  ⟨⟨_, rfl, rfl, rfl, rfl, by decide, rfl, by decide, rfl, by decide⟩,
    ⟨_, rfl, rfl, rfl, rfl, rfl, rfl, rfl, rfl⟩⟩

/-- C14, amended: an object the explicit-bounds constructor builds has
`m_initialized` true exactly when the four arrays given have the length of the
chain's number of joints; and in an object either constructor builds with
`m_initialized` true, the four bound arrays and the tags all have the length of
the chain's number of joints.  The order of the bounds and the signs of the
limits are no condition. -/
theorem readiness_iff_lengths {X : Ext} :
    (∀ (chain : KDL.Chain) (q_min q_max v_max a_max : KDL.JntArray) (maxtime eps : ℚ)
      (type : X.SolveType),
      ∃ s : SNS_IK X,
        SNS_IK.SNS_IK_chain chain q_min q_max v_max a_max maxtime eps type = some s ∧
        (s.m_initialized = true ↔
          q_min.data.length = chain.getNrOfJoints ∧ q_max.data.length = chain.getNrOfJoints ∧
          v_max.data.length = chain.getNrOfJoints ∧ a_max.data.length = chain.getNrOfJoints) ∧
        (s.m_initialized = true →
          s.m_lower_bounds.data.length = s.m_chain.getNrOfJoints ∧
          s.m_upper_bounds.data.length = s.m_chain.getNrOfJoints ∧
          s.m_velocity.data.length = s.m_chain.getNrOfJoints ∧
          s.m_acceleration.data.length = s.m_chain.getNrOfJoints ∧
          s.m_types.length = s.m_chain.getNrOfJoints)) ∧
    (∀ (ros : Ros) (base_link tip_link URDF_param : String) (maxtime eps : ℚ)
      (type : X.SolveType) (s : SNS_IK X),
      SNS_IK.SNS_IK_urdf ros base_link tip_link URDF_param maxtime eps type = some s →
      s.m_initialized = true →
        s.m_lower_bounds.data.length = s.m_chain.getNrOfJoints ∧
        s.m_upper_bounds.data.length = s.m_chain.getNrOfJoints ∧
        s.m_velocity.data.length = s.m_chain.getNrOfJoints ∧
        s.m_acceleration.data.length = s.m_chain.getNrOfJoints ∧
        s.m_types.length = s.m_chain.getNrOfJoints) := by
  have key : ∀ (s0 s : SNS_IK X), s0.m_initialized = false → s0.m_types = [] →
      s0.initialise = some s → s.m_initialized = true →
      s.m_lower_bounds.data.length = s.m_chain.getNrOfJoints ∧
      s.m_upper_bounds.data.length = s.m_chain.getNrOfJoints ∧
      s.m_velocity.data.length = s.m_chain.getNrOfJoints ∧
      s.m_acceleration.data.length = s.m_chain.getNrOfJoints ∧
      s.m_types.length = s.m_chain.getNrOfJoints := by
    intro s0 s hi hty hs hr
    obtain ⟨s', hs', hiff, htl⟩ := initialise_ready_iff s0 hi hty
    rw [hs, Option.some.injEq] at hs'
    subst hs'
    obtain ⟨e1, e2, e3, e4, e5⟩ := initialise_bounds _ _ hs
    obtain ⟨l1, l2, l3, l4⟩ := hiff.1 hr
    rw [e1, e2, e3, e4, e5]
    exact ⟨l1, l2, l3, l4, htl hr⟩
  refine ⟨?_, ?_⟩
  · intro chain q_min q_max v_max a_max maxtime eps type
    obtain ⟨s, hs, hiff, _⟩ := initialise_ready_iff
      ({ m_initialized := false, m_eps := eps, m_maxtime := maxtime, m_solvetype := type,
         m_chain := chain, m_lower_bounds := q_min, m_upper_bounds := q_max,
         m_velocity := v_max, m_acceleration := a_max, m_types := [],
         m_ik_vel_solver := none, m_ik_pos_solver := none, trace := [] } : SNS_IK X) rfl rfl
    exact ⟨s, hs, hiff, key _ s rfl rfl hs⟩
  · intro ros base_link tip_link URDF_param maxtime eps type s h hr
    unfold SNS_IK.SNS_IK_urdf at h
    cases hx : ros.getParamString (full_urdf_xml ros URDF_param) with
    | none =>
      simp only [hx, Option.some.injEq] at h
      subst h
      simp [SNS_IK.blank] at hr
    | some xml =>
      simp only [hx] at h
      cases ht : ros.treeFromUrdfModel (robot_model ros URDF_param) with
      | none =>
        simp only [ht, Option.some.injEq] at h
        subst h
        simp [SNS_IK.blank] at hr
      | some tree =>
        simp only [ht] at h
        split at h
        · simp at h
        · exact key _ s rfl rfl h hr

/-- C14 amended, at a chain with one joint and arrays of length one, and at the
arm. -/
theorem readiness_iff_lengths_witness :
    (∃ s : SNS_IK Ext.demo,
      SNS_IK.SNS_IK_chain chainRotFixed q_min_demo q_max_demo v_max_demo a_max_demo 1 1 () =
        some s ∧
      (s.m_initialized = true ↔
        q_min_demo.data.length = chainRotFixed.getNrOfJoints ∧
        q_max_demo.data.length = chainRotFixed.getNrOfJoints ∧
        v_max_demo.data.length = chainRotFixed.getNrOfJoints ∧
        a_max_demo.data.length = chainRotFixed.getNrOfJoints) ∧
      (s.m_initialized = true →
        s.m_lower_bounds.data.length = s.m_chain.getNrOfJoints ∧
        s.m_upper_bounds.data.length = s.m_chain.getNrOfJoints ∧
        s.m_velocity.data.length = s.m_chain.getNrOfJoints ∧
        s.m_acceleration.data.length = s.m_chain.getNrOfJoints ∧
        s.m_types.length = s.m_chain.getNrOfJoints)) ∧
    armFacade.m_lower_bounds.data.length = armFacade.m_chain.getNrOfJoints ∧
    armFacade.m_upper_bounds.data.length = armFacade.m_chain.getNrOfJoints ∧
    armFacade.m_velocity.data.length = armFacade.m_chain.getNrOfJoints ∧
    armFacade.m_acceleration.data.length = armFacade.m_chain.getNrOfJoints ∧
    armFacade.m_types.length = armFacade.m_chain.getNrOfJoints :=
  ⟨(@readiness_iff_lengths Ext.demo).1 chainRotFixed q_min_demo q_max_demo v_max_demo
      a_max_demo 1 1 (),
    (@readiness_iff_lengths Ext.demo).2 rosArm "base" "tip" "robot_description" 1 1 ()
      armFacade rfl rfl⟩

/-! ### CartToJnt called twice -/

/-- C17: when a call of `CartToJnt` has returned and left the position solver in
the state it was in, a second call on the same object with the same `q_init`,
`p_in`, `q_out` and `tolerances` returns the same code and leaves the same
`q_out`, whether the object is initialized or not.  (The solver is a function of
its state and arguments.) -/
theorem CartToJnt_twice {X : Ext} (s : SNS_IK X) (q_init : KDL.JntArray) (p_in : X.Frame)
    (q_out : KDL.JntArray) (tolerances : X.Twist) (r1 : CartToJntResult X)
    (h1 : s.CartToJnt q_init p_in q_out tolerances = some r1)
    (hun : r1.self.m_ik_pos_solver = s.m_ik_pos_solver) :
    ∃ r2, r1.self.CartToJnt q_init p_in q_out tolerances = some r2 ∧
      r2.ret = r1.ret ∧ r2.q_out = r1.q_out := by
  unfold SNS_IK.CartToJnt at h1
  cases hi : s.m_initialized with
  | false =>
    simp only [hi, Bool.not_false, if_true, Option.some.injEq] at h1
    subst h1
    simp [SNS_IK.CartToJnt, hi]
  | true =>
    cases hp : s.m_ik_pos_solver with
    | none => simp [hi, hp] at h1
    | some solver =>
      simp only [hi, hp, Bool.not_true, Bool.false_eq_true, if_false, Option.some.injEq] at h1
      subst h1
      simp only [hp, Option.some.injEq] at hun
      simp [SNS_IK.CartToJnt, hi, hun]

/-- C17, at a ready object whose solver keeps no state. -/
theorem CartToJnt_twice_witness :
    statelessReady.CartToJnt ⟨[1, 2]⟩ (3 : ℚ) ⟨[4, 5]⟩ (6 : ℚ) =
      some ⟨7, ⟨[1, 2]⟩, { statelessReady with trace := [Event.pos_CartToJnt] }⟩ ∧
    ({ statelessReady with trace := [Event.pos_CartToJnt] } : SNS_IK Ext.stateless).m_ik_pos_solver =
      statelessReady.m_ik_pos_solver ∧
    ∃ r2, ({ statelessReady with trace := [Event.pos_CartToJnt] } : SNS_IK Ext.stateless).CartToJnt
        ⟨[1, 2]⟩ (3 : ℚ) ⟨[4, 5]⟩ (6 : ℚ) = some r2 ∧
      r2.ret = 7 ∧ r2.q_out = ⟨[1, 2]⟩ :=
  ⟨rfl, rfl,
    @CartToJnt_twice Ext.stateless statelessReady ⟨[1, 2]⟩ (3 : ℚ) ⟨[4, 5]⟩ (6 : ℚ)
      ⟨7, ⟨[1, 2]⟩, { statelessReady with trace := [Event.pos_CartToJnt] }⟩ rfl rfl⟩

/-! ### initialize(): the reads of the loop -/

/-- The loop of `initialize()` over a list of segments that is split in two: it
runs over the first part and goes on over the second from the tags it has then. -/
theorem populateTypes_append (lower upper : KDL.JntArray) :
    ∀ (pre post : List KDL.Segment) (ts : List JointType),
      populateTypes lower upper (pre ++ post) ts =
        match populateTypes lower upper pre ts with
        | none => none
        | some ts1 => populateTypes lower upper post ts1 := by
  intro pre
  induction pre with
  | nil => intro post ts; rfl
  | cons seg rest ih =>
    intro post ts
    simp only [List.cons_append, populateTypes]
    cases pushType lower upper ts seg with
    | none => rfl
    | some ts1 => exact ih post ts1

/-- C18: in `initialize()`, on an object with no tags yet whose lower and upper
bound arrays have the length of the chain's number of joints: every counted
joint has a type name that contains `Rot` or `Trans`; when the loop reaches a
segment whose type name contains `Rot`, the loop has come that far,
`m_types.size()` is below the length of both arrays, and the step on that segment
goes through; and the loop ends with `m_types.size()` equal to that length, so
the last check holds. -/
theorem initialise_reads_in_range {X : Ext} (s : SNS_IK X) (hty : s.m_types = [])
    (hl : s.m_lower_bounds.data.length = s.m_chain.getNrOfJoints)
    (hu : s.m_upper_bounds.data.length = s.m_chain.getNrOfJoints) :
    (∀ seg ∈ s.m_chain.segments, seg.counted = true →
      find_ne_npos seg.getJoint.getTypeName "Rot" = true ∨
      find_ne_npos seg.getJoint.getTypeName "Trans" = true) ∧
    (∀ (pre : List KDL.Segment) (seg : KDL.Segment) (post : List KDL.Segment),
      s.m_chain.segments = pre ++ seg :: post →
      find_ne_npos seg.getJoint.getTypeName "Rot" = true →
      ∃ ts, populateTypes s.m_lower_bounds s.m_upper_bounds pre s.m_types = some ts ∧
        ts.length < s.m_upper_bounds.data.length ∧
        ts.length < s.m_lower_bounds.data.length ∧
        ∃ ts1, pushType s.m_lower_bounds s.m_upper_bounds ts seg = some ts1) ∧
    ∃ ts, populateTypes s.m_lower_bounds s.m_upper_bounds s.m_chain.segments s.m_types =
        some ts ∧
      ts.length = s.m_lower_bounds.data.length ∧
      (ts.length == s.m_lower_bounds.data.length) = true := by
  refine ⟨?_, ?_, ?_⟩
  · intro seg _ hc
    have hne : seg.getJoint.type ≠ KDL.JointType.None := by
      simpa [KDL.Segment.counted] using hc
    cases ht : seg.getJoint.type with
    | None => exact absurd ht hne
    | RotAxis | RotX | RotY | RotZ =>
      left
      simp only [KDL.Joint.getTypeName, ht]
      decide
    | TransAxis | TransX | TransY | TransZ =>
      right
      simp only [KDL.Joint.getTypeName, ht]
      decide
  · intro pre seg post hsplit hrot
    have hc : seg.counted = true := by
      cases ht : seg.getJoint.type with
      | None =>
        simp only [KDL.Joint.getTypeName, ht] at hrot
        exact absurd hrot (by decide)
      | _ => simp [KDL.Segment.counted, ht]
    have hcount : s.m_chain.getNrOfJoints =
        pre.countP KDL.Segment.counted + 1 + post.countP KDL.Segment.counted := by
      simp [KDL.Chain.getNrOfJoints, hsplit, List.countP_append, List.countP_cons, hc]
      omega
    obtain ⟨ts, hrun, hlen, _⟩ :=
      populateTypes_spec s.m_lower_bounds s.m_upper_bounds pre s.m_types
        (by rw [hty, hl, hcount]; simp; omega) (by rw [hty, hu, hcount]; simp; omega)
    rw [hty] at hlen
    simp only [List.length_nil, Nat.zero_add] at hlen
    have h1 : ts.length < s.m_upper_bounds.data.length := by omega
    have h2 : ts.length < s.m_lower_bounds.data.length := by omega
    exact ⟨ts, hrun, h1, h2, _,
      pushType_counted s.m_lower_bounds s.m_upper_bounds ts seg _ _ hc
        (List.getElem?_eq_getElem h2) (List.getElem?_eq_getElem h1)⟩
  · obtain ⟨ts, hrun, hlen, _⟩ :=
      populateTypes_spec s.m_lower_bounds s.m_upper_bounds s.m_chain.segments s.m_types
        (by rw [hty, hl]; simp [KDL.Chain.getNrOfJoints])
        (by rw [hty, hu]; simp [KDL.Chain.getNrOfJoints])
    have hlen' : ts.length = s.m_lower_bounds.data.length := by
      rw [hlen, hty, hl]; simp [KDL.Chain.getNrOfJoints]
    exact ⟨ts, hrun, hlen', by simp [hlen']⟩

/-- C18, at a chain of one rotation and one fixed joint. -/
theorem initialise_reads_in_range_witness :
    demoBefore.m_types = [] ∧
    demoBefore.m_lower_bounds.data.length = demoBefore.m_chain.getNrOfJoints ∧
    demoBefore.m_upper_bounds.data.length = demoBefore.m_chain.getNrOfJoints ∧
    (∀ seg ∈ demoBefore.m_chain.segments, seg.counted = true →
      find_ne_npos seg.getJoint.getTypeName "Rot" = true ∨
      find_ne_npos seg.getJoint.getTypeName "Trans" = true) ∧
    (∀ (pre : List KDL.Segment) (seg : KDL.Segment) (post : List KDL.Segment),
      demoBefore.m_chain.segments = pre ++ seg :: post →
      find_ne_npos seg.getJoint.getTypeName "Rot" = true →
      ∃ ts, populateTypes demoBefore.m_lower_bounds demoBefore.m_upper_bounds pre
          demoBefore.m_types = some ts ∧
        ts.length < demoBefore.m_upper_bounds.data.length ∧
        ts.length < demoBefore.m_lower_bounds.data.length ∧
        ∃ ts1, pushType demoBefore.m_lower_bounds demoBefore.m_upper_bounds ts seg = some ts1) ∧
    ∃ ts, populateTypes demoBefore.m_lower_bounds demoBefore.m_upper_bounds
        demoBefore.m_chain.segments demoBefore.m_types = some ts ∧
      ts.length = demoBefore.m_lower_bounds.data.length ∧
      (ts.length == demoBefore.m_lower_bounds.data.length) = true :=
  ⟨rfl, by decide, by decide,
    initialise_reads_in_range demoBefore rfl (by decide) (by decide)⟩

/-! ### The URDF constructor on a chain of the four axis kinds -/

/-- What `segmentFromModel` says of a segment: its joint is in the model, it is
counted by the chain exactly when it passes the type test of line 69, lines
70-87 then find the limits they dereference, and a continuous joint is a
rotation. -/
theorem segmentFromModel_spec (model : urdf.Model) (seg : KDL.Segment)
    (h : segmentFromModel model seg = true) :
    ∃ joint, model.getJoint seg.getJoint.getName = some joint ∧
      (seg.counted = true ↔
        (joint.type ≠ urdf.JointType.UNKNOWN ∧ joint.type ≠ urdf.JointType.FIXED)) ∧
      ((joint.type ≠ urdf.JointType.UNKNOWN ∧ joint.type ≠ urdf.JointType.FIXED) →
        ∃ m, modelLimits joint = some m) ∧
      (joint.type = urdf.JointType.CONTINUOUS → seg.getJoint.type.isRotational = true) := by
  have hrot : seg.getJoint.type.isRotational = true → seg.counted = true := by
    intro hr
    cases ht : seg.getJoint.type <;> simp_all [KDL.Segment.counted, KDL.JointType.isRotational]
  have htrans : seg.getJoint.type.isTranslational = true → seg.counted = true := by
    intro hr
    cases ht : seg.getJoint.type <;>
      simp_all [KDL.Segment.counted, KDL.JointType.isTranslational]
  have hnone : seg.getJoint.type = KDL.JointType.None → ¬ seg.counted = true := by
    intro hn
    simp [KDL.Segment.counted, hn]
  unfold segmentFromModel at h
  cases hj : model.getJoint seg.getJoint.getName with
  | none => simp [hj] at h
  | some joint =>
    simp only [hj] at h
    refine ⟨joint, rfl, ?_⟩
    cases ht : joint.type with
    | REVOLUTE =>
      simp only [ht, Bool.and_eq_true] at h
      refine ⟨⟨fun _ => by simp, fun _ => hrot h.1⟩, fun _ => ?_, by simp⟩
      cases hl : joint.limits with
      | none => simp [hl] at h
      | some limits => cases hs : joint.safety <;> simp [modelLimits, ht, hl, hs]
    | CONTINUOUS =>
      simp only [ht] at h
      exact ⟨⟨fun _ => by simp, fun _ => hrot h⟩, fun _ => by simp [modelLimits, ht],
        fun _ => h⟩
    | PRISMATIC =>
      simp only [ht, Bool.and_eq_true] at h
      refine ⟨⟨fun _ => by simp, fun _ => htrans h.1⟩, fun _ => ?_, by simp⟩
      cases hl : joint.limits with
      | none => simp [hl] at h
      | some limits => cases hs : joint.safety <;> simp [modelLimits, ht, hl, hs]
    | FIXED =>
      simp only [ht, decide_eq_true_eq] at h
      exact ⟨⟨fun hc => absurd hc (hnone h), fun hh => absurd rfl hh.2⟩,
        fun hh => absurd rfl hh.2, by simp⟩
    | UNKNOWN =>
      simp only [ht, decide_eq_true_eq] at h
      exact ⟨⟨fun hc => absurd hc (hnone h), fun hh => absurd rfl hh.1⟩,
        fun hh => absurd rfl hh.1, by simp⟩
    | FLOATING => simp [ht] at h
    | PLANAR => simp [ht] at h

/-- The four stores of lines 105-108 go through when `joint_num` is inside the
four arrays, and leave the lengths as they are. -/
theorem Bounds_store_total (b : Bounds) (joint_num L : Nat) (v : JointValues)
    (h1 : b.m_lower_bounds.data.length = L) (h2 : b.m_upper_bounds.data.length = L)
    (h3 : b.m_velocity.data.length = L) (h4 : b.m_acceleration.data.length = L)
    (hj : joint_num < L) :
    ∃ b1, b.store joint_num v = some b1 ∧
      b1.m_lower_bounds.data.length = L ∧ b1.m_upper_bounds.data.length = L ∧
      b1.m_velocity.data.length = L ∧ b1.m_acceleration.data.length = L := by
  refine ⟨⟨⟨b.m_lower_bounds.data.set joint_num v.lower⟩,
    ⟨b.m_upper_bounds.data.set joint_num v.upper⟩,
    ⟨b.m_velocity.data.set joint_num v.velocity⟩,
    ⟨b.m_acceleration.data.set joint_num v.acceleration⟩⟩, ?_, by simp [h1], by simp [h2],
    by simp [h3], by simp [h4]⟩
  simp [Bounds.store, KDL.JntArray.write, h1, h2, h3, h4, hj]

/-- The loop of the URDF constructor on segments that come from the model: when
the four arrays have room for every counted segment still to come, the loop runs
to the end and leaves the lengths of the arrays as they are. -/
theorem urdfLoop_total (ros : Ros) (model : urdf.Model) (name : String) (L : Nat) :
    ∀ (segs : List KDL.Segment) (joint_num : Nat) (b : Bounds),
      (∀ seg ∈ segs, segmentFromModel model seg = true) →
      b.m_lower_bounds.data.length = L → b.m_upper_bounds.data.length = L →
      b.m_velocity.data.length = L → b.m_acceleration.data.length = L →
      joint_num + segs.countP KDL.Segment.counted ≤ L →
      ∃ r, urdfLoop ros model name segs joint_num b = some r ∧
        r.2.m_lower_bounds.data.length = L ∧ r.2.m_upper_bounds.data.length = L ∧
        r.2.m_velocity.data.length = L ∧ r.2.m_acceleration.data.length = L := by
  intro segs
  induction segs with
  | nil =>
    intro joint_num b _ h1 h2 h3 h4 _
    exact ⟨(joint_num, b), rfl, h1, h2, h3, h4⟩
  | cons seg rest ih =>
    intro joint_num b hall h1 h2 h3 h4 hroom
    obtain ⟨joint, hj, hiff, hlim, _⟩ :=
      segmentFromModel_spec model seg (hall seg (List.mem_cons_self _ _))
    have hrest : ∀ sg ∈ rest, segmentFromModel model sg = true :=
      fun sg hsg => hall sg (List.mem_cons_of_mem _ hsg)
    by_cases ht : joint.type ≠ urdf.JointType.UNKNOWN ∧ joint.type ≠ urdf.JointType.FIXED
    · have hc : seg.counted = true := hiff.2 ht
      have hcnt : (seg :: rest).countP KDL.Segment.counted =
          rest.countP KDL.Segment.counted + 1 := by simp [List.countP_cons, hc]
      rw [hcnt] at hroom
      obtain ⟨m, hm⟩ := hlim ht
      obtain ⟨b1, hb1, l1, l2, l3, l4⟩ :=
        Bounds_store_total b joint_num L (paramLimits ros name joint m) h1 h2 h3 h4 (by omega)
      obtain ⟨r, hr, hlen⟩ := ih (joint_num + 1) b1 hrest l1 l2 l3 l4 (by omega)
      refine ⟨r, ?_, hlen⟩
      simp only [urdfLoop, hj, if_pos ht, jointValues, hm, hb1]
      exact hr
    · have hc : ¬ seg.counted = true := fun hc => ht (hiff.1 hc)
      have hcnt : (seg :: rest).countP KDL.Segment.counted =
          rest.countP KDL.Segment.counted := by simp [List.countP_cons, hc]
      rw [hcnt] at hroom
      obtain ⟨r, hr, hlen⟩ := ih joint_num b hrest h1 h2 h3 h4 hroom
      refine ⟨r, ?_, hlen⟩
      simp only [urdfLoop, hj, if_neg ht]
      exact hr

/-- On segments that come from the model, the joints the loop processes are the
joints of the counted segments, in the same order. -/
theorem processedJoints_aligned (model : urdf.Model) :
    ∀ (segs : List KDL.Segment), (∀ seg ∈ segs, segmentFromModel model seg = true) →
      (processedJoints model segs).length = (segs.filter KDL.Segment.counted).length ∧
      ∀ (k : Nat) (seg : KDL.Segment), (segs.filter KDL.Segment.counted)[k]? = some seg →
        ∃ joint, model.getJoint seg.getJoint.getName = some joint ∧
          (processedJoints model segs)[k]? = some joint := by
  intro segs
  induction segs with
  | nil =>
    intro _
    exact ⟨rfl, by simp⟩
  | cons seg rest ih =>
    intro hall
    obtain ⟨joint, hj, hiff, _, _⟩ :=
      segmentFromModel_spec model seg (hall seg (List.mem_cons_self _ _))
    obtain ⟨ihlen, ihk⟩ := ih (fun sg hsg => hall sg (List.mem_cons_of_mem _ hsg))
    by_cases ht : joint.type ≠ urdf.JointType.UNKNOWN ∧ joint.type ≠ urdf.JointType.FIXED
    · have hc : seg.counted = true := hiff.2 ht
      have hpj : processedJoints model (seg :: rest) = joint :: processedJoints model rest := by
        simp [processedJoints, hj, ht]
      rw [hpj, List.filter_cons_of_pos hc]
      refine ⟨by simp [ihlen], ?_⟩
      intro k sg hk
      cases k with
      | zero =>
        simp only [List.getElem?_cons_zero, Option.some.injEq] at hk
        subst hk
        exact ⟨joint, hj, by simp⟩
      | succ k =>
        simp only [List.getElem?_cons_succ] at hk ⊢
        exact ihk k sg hk
    · have hc : ¬ seg.counted = true := fun hc => ht (hiff.1 hc)
      have hpj : processedJoints model (seg :: rest) = processedJoints model rest := by
        simp only [processedJoints, List.filterMap_cons, hj, if_neg ht]
      rw [hpj, List.filter_cons_of_neg hc]
      exact ⟨ihlen, ihk⟩

/-- The member function `initialize()` on an object with no tags yet whose four
bound arrays have the length of the chain's number of joints: it ends with
`m_initialized` true, one tag for each counted segment, and for the `k`-th
counted segment the tag the rule gives from the bounds at index `k`. -/
theorem initialise_spec {X : Ext} (s : SNS_IK X) (hty : s.m_types = [])
    (hl : s.m_lower_bounds.data.length = s.m_chain.getNrOfJoints)
    (hu : s.m_upper_bounds.data.length = s.m_chain.getNrOfJoints)
    (hv : s.m_velocity.data.length = s.m_chain.getNrOfJoints)
    (ha : s.m_acceleration.data.length = s.m_chain.getNrOfJoints) :
    ∃ s', s.initialise = some s' ∧ s'.m_initialized = true ∧
      s'.m_types.length = s.m_chain.getNrOfJoints ∧
      ∀ (k : Nat) (seg : KDL.Segment), s.m_chain.actuated[k]? = some seg →
        ∃ lo up, s.m_lower_bounds.data[k]? = some lo ∧ s.m_upper_bounds.data[k]? = some up ∧
          s'.m_types[k]? = some (ruleTag seg.getJoint.type lo up) := by
  obtain ⟨ts', hrun, hlen, _, htag⟩ :=
    populateTypes_spec s.m_lower_bounds s.m_upper_bounds s.m_chain.segments s.m_types
      (by rw [hty, hl]; simp [KDL.Chain.getNrOfJoints])
      (by rw [hty, hu]; simp [KDL.Chain.getNrOfJoints])
  have hlen' : ts'.length = s.m_lower_bounds.data.length := by
    rw [hlen, hty, hl]; simp [KDL.Chain.getNrOfJoints]
  refine ⟨_, by
    unfold SNS_IK.initialise ROS_ASSERT_MSG
    simp only [beq_iff_eq]
    rw [if_pos hl.symm, if_pos hu.symm, if_pos hv.symm, if_pos ha.symm, hrun]
    simp only []
    rw [if_pos hlen'], rfl, ?_, ?_⟩
  · show ts'.length = _
    rw [hlen', hl]
  · intro k seg hk
    obtain ⟨lo, up, h1, h2, h3⟩ := htag k seg hk
    rw [hty] at h1 h2 h3
    simp only [List.length_nil, Nat.zero_add] at h1 h2 h3
    exact ⟨lo, up, h1, h2, h3⟩

/-- The URDF constructor on a chain that comes from the model and has only joints
of the four axis kinds: it builds an object, initialized, with that chain; the
four arrays and the tags have the length of the chain's number of joints; and
for the `k`-th counted segment, its joint is the `k`-th joint processed, the
values of lines 70-108 for it are at index `k` of the four arrays, and its tag is
the one the rule gives from the bounds stored. -/
theorem SNS_IK_urdf_built {X : Ext} (ros : Ros) (base_link tip_link URDF_param : String)
    (maxtime eps : ℚ) (type : X.SolveType) (xml : String) (tree : KDL.Tree)
    (hxml : ros.getParamString (full_urdf_xml ros URDF_param) = some xml)
    (htree : ros.treeFromUrdfModel (robot_model ros URDF_param) = some tree)
    (hfm : chainFromModel (robot_model ros URDF_param)
      (tree.getChain base_link tip_link).2 = true) :
    ∃ s : SNS_IK X,
      SNS_IK.SNS_IK_urdf ros base_link tip_link URDF_param maxtime eps type = some s ∧
      s.m_initialized = true ∧ s.m_chain = (tree.getChain base_link tip_link).2 ∧
      s.m_lower_bounds.data.length = s.m_chain.getNrOfJoints ∧
      s.m_upper_bounds.data.length = s.m_chain.getNrOfJoints ∧
      s.m_velocity.data.length = s.m_chain.getNrOfJoints ∧
      s.m_acceleration.data.length = s.m_chain.getNrOfJoints ∧
      s.m_types.length = s.m_chain.getNrOfJoints ∧
      ∀ (k : Nat) (seg : KDL.Segment),
        (tree.getChain base_link tip_link).2.actuated[k]? = some seg →
        ∃ joint v, (robot_model ros URDF_param).getJoint seg.getJoint.getName = some joint ∧
          (processedJoints (robot_model ros URDF_param)
            (tree.getChain base_link tip_link).2.segments)[k]? = some joint ∧
          jointValues ros (urdf_xml ros URDF_param) joint = some v ∧
          s.m_lower_bounds.data[k]? = some v.lower ∧ s.m_upper_bounds.data[k]? = some v.upper ∧
          s.m_velocity.data[k]? = some v.velocity ∧
          s.m_acceleration.data[k]? = some v.acceleration ∧
          s.m_types[k]? = some (ruleTag seg.getJoint.type v.lower v.upper) := by
  have hall : ∀ seg ∈ (tree.getChain base_link tip_link).2.segments,
      segmentFromModel (robot_model ros URDF_param) seg = true := by
    intro seg hseg
    exact List.all_eq_true.mp hfm seg hseg
  have hz : ∀ n : Nat, (KDL.JntArray.resize n).data.length = n := by
    intro n
    simp [KDL.JntArray.resize]
  obtain ⟨r, hr, l1, l2, l3, l4⟩ := urdfLoop_total ros (robot_model ros URDF_param)
    (urdf_xml ros URDF_param) (tree.getChain base_link tip_link).2.getNrOfJoints
    (tree.getChain base_link tip_link).2.segments 0
    ⟨KDL.JntArray.resize (tree.getChain base_link tip_link).2.getNrOfJoints,
     KDL.JntArray.resize (tree.getChain base_link tip_link).2.getNrOfJoints,
     KDL.JntArray.resize (tree.getChain base_link tip_link).2.getNrOfJoints,
     KDL.JntArray.resize (tree.getChain base_link tip_link).2.getNrOfJoints⟩
    hall (hz _) (hz _) (hz _) (hz _) (by simp [KDL.Chain.getNrOfJoints])
  obtain ⟨s, hs, hready, htl, htag⟩ := initialise_spec
    ({ m_initialized := false, m_eps := eps, m_maxtime := maxtime, m_solvetype := type,
       m_chain := (tree.getChain base_link tip_link).2,
       m_lower_bounds := r.2.m_lower_bounds, m_upper_bounds := r.2.m_upper_bounds,
       m_velocity := r.2.m_velocity, m_acceleration := r.2.m_acceleration, m_types := [],
       m_ik_vel_solver := none, m_ik_pos_solver := none,
       trace := if (tree.getChain base_link tip_link).1 = true then []
                else [] ++ [Event.ROS_FATAL "Couldn't find chain %s to %s"] } : SNS_IK X)
    rfl l1 l2 l3 l4
  obtain ⟨e1, e2, e3, e4, e5⟩ := initialise_bounds _ _ hs
  simp only at e1 e2 e3 e4 e5 htl htag
  refine ⟨s, ?_, hready, e5, by rw [e1, e5]; exact l1, by rw [e2, e5]; exact l2,
    by rw [e3, e5]; exact l3, by rw [e4, e5]; exact l4, by rw [e5]; exact htl, ?_⟩
  · unfold SNS_IK.SNS_IK_urdf
    simp only [hxml, htree, hr]
    exact hs
  · intro k seg hk
    obtain ⟨joint, hj, hp⟩ := (processedJoints_aligned (robot_model ros URDF_param) _ hall).2
      k seg hk
    obtain ⟨v, hv, hh⟩ := (urdfLoop_spec ros _ _ _ _ _ _ hr).2 k joint hp
    rw [Nat.zero_add] at hh
    obtain ⟨lo, up, t1, t2, t3⟩ := htag k seg hk
    rw [hh.1, Option.some.injEq] at t1
    rw [hh.2.1, Option.some.injEq] at t2
    subst t1 t2
    exact ⟨joint, v, hj, hp, hv, by rw [e1]; exact hh.1, by rw [e2]; exact hh.2.1,
      by rw [e3]; exact hh.2.2.1, by rw [e4]; exact hh.2.2.2, t3⟩

/-- C16: on a chain that comes from the model and whose joints are rotational,
translational, fixed or unknown, the URDF constructor builds an object whose
four bound arrays and whose joint-type sequence have the length of the number of
actuated joints; the joints it resolves limits for are as many, so that fixed and
unknown joints take no index; and the values resolved for the `k`-th actuated
joint in chain order are at index `k` of the four arrays. -/
theorem SNS_IK_urdf_index_aligned {X : Ext} (ros : Ros)
    (base_link tip_link URDF_param : String) (maxtime eps : ℚ) (type : X.SolveType)
    (xml : String) (tree : KDL.Tree)
    (hxml : ros.getParamString (full_urdf_xml ros URDF_param) = some xml)
    (htree : ros.treeFromUrdfModel (robot_model ros URDF_param) = some tree)
    (hfm : chainFromModel (robot_model ros URDF_param)
      (tree.getChain base_link tip_link).2 = true) :
    ∃ s : SNS_IK X,
      SNS_IK.SNS_IK_urdf ros base_link tip_link URDF_param maxtime eps type = some s ∧
      s.m_chain = (tree.getChain base_link tip_link).2 ∧
      s.m_lower_bounds.data.length = s.m_chain.actuated.length ∧
      s.m_upper_bounds.data.length = s.m_chain.actuated.length ∧
      s.m_velocity.data.length = s.m_chain.actuated.length ∧
      s.m_acceleration.data.length = s.m_chain.actuated.length ∧
      s.m_types.length = s.m_chain.actuated.length ∧
      (processedJoints (robot_model ros URDF_param) s.m_chain.segments).length =
        s.m_chain.actuated.length ∧
      ∀ (k : Nat) (seg : KDL.Segment), s.m_chain.actuated[k]? = some seg →
        ∃ joint v, (robot_model ros URDF_param).getJoint seg.getJoint.getName = some joint ∧
          (processedJoints (robot_model ros URDF_param) s.m_chain.segments)[k]? = some joint ∧
          jointValues ros (urdf_xml ros URDF_param) joint = some v ∧
          s.m_lower_bounds.data[k]? = some v.lower ∧ s.m_upper_bounds.data[k]? = some v.upper ∧
          s.m_velocity.data[k]? = some v.velocity ∧
          s.m_acceleration.data[k]? = some v.acceleration := by
  obtain ⟨s, hs, _, hchain, l1, l2, l3, l4, l5, hvals⟩ :=
    SNS_IK_urdf_built ros base_link tip_link URDF_param maxtime eps type xml tree hxml htree hfm
  have hact : s.m_chain.actuated.length = s.m_chain.getNrOfJoints := by
    simp [KDL.Chain.actuated, KDL.Chain.getNrOfJoints, List.countP_eq_length_filter]
  have hall : ∀ seg ∈ s.m_chain.segments,
      segmentFromModel (robot_model ros URDF_param) seg = true := by
    intro seg hseg
    rw [hchain] at hseg
    exact List.all_eq_true.mp hfm seg hseg
  refine ⟨s, hs, hchain, by rw [hact]; exact l1, by rw [hact]; exact l2,
    by rw [hact]; exact l3, by rw [hact]; exact l4, by rw [hact]; exact l5,
    (processedJoints_aligned (robot_model ros URDF_param) _ hall).1, ?_⟩
  intro k seg hk
  rw [hchain] at hk ⊢
  obtain ⟨joint, v, hj, hp, hv, h1, h2, h3, h4, _⟩ := hvals k seg hk
  exact ⟨joint, v, hj, hp, hv, h1, h2, h3, h4⟩

/-- C16, at the arm: a revolute, a fixed and a continuous joint. -/
theorem SNS_IK_urdf_index_aligned_witness :
    rosArm.getParamString (full_urdf_xml rosArm "robot_description") =
      some "<robot><link/></robot>" ∧
    rosArm.treeFromUrdfModel (robot_model rosArm "robot_description") = some armTree ∧
    chainFromModel (robot_model rosArm "robot_description")
      (armTree.getChain "base" "tip").2 = true ∧
    ∃ s : SNS_IK Ext.demo,
      SNS_IK.SNS_IK_urdf rosArm "base" "tip" "robot_description" 1 1 () = some s ∧
      s.m_chain = (armTree.getChain "base" "tip").2 ∧
      s.m_lower_bounds.data.length = s.m_chain.actuated.length ∧
      s.m_upper_bounds.data.length = s.m_chain.actuated.length ∧
      s.m_velocity.data.length = s.m_chain.actuated.length ∧
      s.m_acceleration.data.length = s.m_chain.actuated.length ∧
      s.m_types.length = s.m_chain.actuated.length ∧
      (processedJoints (robot_model rosArm "robot_description") s.m_chain.segments).length =
        s.m_chain.actuated.length ∧
      ∀ (k : Nat) (seg : KDL.Segment), s.m_chain.actuated[k]? = some seg →
        ∃ joint v,
          (robot_model rosArm "robot_description").getJoint seg.getJoint.getName = some joint ∧
          (processedJoints (robot_model rosArm "robot_description") s.m_chain.segments)[k]? =
            some joint ∧
          jointValues rosArm (urdf_xml rosArm "robot_description") joint = some v ∧
          s.m_lower_bounds.data[k]? = some v.lower ∧ s.m_upper_bounds.data[k]? = some v.upper ∧
          s.m_velocity.data[k]? = some v.velocity ∧
          s.m_acceleration.data[k]? = some v.acceleration :=
  ⟨rfl, rfl, by decide,
    @SNS_IK_urdf_index_aligned Ext.demo rosArm "base" "tip" "robot_description" 1 1 ()
      "<robot><link/></robot>" armTree rfl rfl (by decide)⟩

/-- C19: on a chain that comes from the model and whose joints are of the four
axis kinds, the tag `initialize()` gives a joint that is continuous in the model
is `Continuous` exactly when the `max_position` override is absent or at least
the largest float and the `min_position` override is absent or at most the
lowest float; otherwise the tag is `Revolute`. -/
theorem SNS_IK_urdf_continuous_tag {X : Ext} (ros : Ros)
    (base_link tip_link URDF_param : String) (maxtime eps : ℚ) (type : X.SolveType)
    (xml : String) (tree : KDL.Tree) (k : Nat) (seg : KDL.Segment) (joint : urdf.Joint)
    (hxml : ros.getParamString (full_urdf_xml ros URDF_param) = some xml)
    (htree : ros.treeFromUrdfModel (robot_model ros URDF_param) = some tree)
    (hfm : chainFromModel (robot_model ros URDF_param)
      (tree.getChain base_link tip_link).2 = true)
    (hk : (tree.getChain base_link tip_link).2.actuated[k]? = some seg)
    (hj : (robot_model ros URDF_param).getJoint seg.getJoint.getName = some joint)
    (hc : joint.type = urdf.JointType.CONTINUOUS) :
    ∃ (s : SNS_IK X) (tag : JointType),
      SNS_IK.SNS_IK_urdf ros base_link tip_link URDF_param maxtime eps type = some s ∧
      s.m_types[k]? = some tag ∧
      (tag = JointType.Continuous ↔
        (∀ ul, limitParam ros URDF_param joint "max_position" = some ul → ul ≥ FLT_MAX) ∧
        (∀ ll, limitParam ros URDF_param joint "min_position" = some ll → ll ≤ FLT_LOWEST)) ∧
      (tag ≠ JointType.Continuous → tag = JointType.Revolute) := by
  obtain ⟨s, hs, _, _, _, _, _, _, _, hvals⟩ :=
    SNS_IK_urdf_built ros base_link tip_link URDF_param maxtime eps type xml tree hxml htree hfm
  obtain ⟨joint', v, hj', _, hv, _, _, _, _, htag⟩ := hvals k seg hk
  rw [hj, Option.some.injEq] at hj'
  subst hj'
  have hmem : seg ∈ (tree.getChain base_link tip_link).2.segments := by
    have := List.getElem?_mem hk
    simp only [KDL.Chain.actuated, List.mem_filter] at this
    exact this.1
  obtain ⟨joint'', hj'', _, _, hrot⟩ :=
    segmentFromModel_spec (robot_model ros URDF_param) seg
      (List.all_eq_true.mp hfm seg hmem)
  rw [hj, Option.some.injEq] at hj''
  subst hj''
  obtain ⟨w, hw, w1, w2, _, _⟩ := jointValues_continuous ros URDF_param joint hc
  rw [hv, Option.some.injEq] at hw
  subst hw
  have hlo : v.lower ≤ FLT_LOWEST ↔
      ∀ ll, limitParam ros URDF_param joint "min_position" = some ll → ll ≤ FLT_LOWEST := by
    rw [w1]
    cases limitParam ros URDF_param joint "min_position" <;> simp [maxOpt]
  have hup : v.upper ≥ FLT_MAX ↔
      ∀ ul, limitParam ros URDF_param joint "max_position" = some ul → ul ≥ FLT_MAX := by
    rw [w2]
    cases limitParam ros URDF_param joint "max_position" <;> simp [minOpt]
  refine ⟨s, _, hs, htag, ?_, ?_⟩
  · rw [← hlo, ← hup]
    by_cases hcond : v.lower ≤ FLT_LOWEST ∧ v.upper ≥ FLT_MAX
    · simp [ruleTag, hrot hc, hcond]
    · simp only [ruleTag, hrot hc, if_true, if_neg hcond]
      constructor
      · intro h
        exact absurd h (by decide)
      · intro h
        exact absurd ⟨h.2, h.1⟩ hcond
  · intro hne
    by_cases hcond : v.lower ≤ FLT_LOWEST ∧ v.upper ≥ FLT_MAX
    · simp [ruleTag, hrot hc, hcond] at hne
    · simp [ruleTag, hrot hc, hcond]

/-- C19, at the arm's continuous joint with the parameter server `rosArm`, where
its `max_position` override is `1`. -/
theorem SNS_IK_urdf_continuous_tag_witness :
    rosArm.getParamString (full_urdf_xml rosArm "robot_description") =
      some "<robot><link/></robot>" ∧
    rosArm.treeFromUrdfModel (robot_model rosArm "robot_description") = some armTree ∧
    chainFromModel (robot_model rosArm "robot_description")
      (armTree.getChain "base" "tip").2 = true ∧
    (armTree.getChain "base" "tip").2.actuated[1]? =
      some ⟨⟨"j2", KDL.JointType.RotAxis⟩⟩ ∧
    (robot_model rosArm "robot_description").getJoint "j2" = some armContinuous ∧
    armContinuous.type = urdf.JointType.CONTINUOUS ∧
    ∃ (s : SNS_IK Ext.demo) (tag : JointType),
      SNS_IK.SNS_IK_urdf rosArm "base" "tip" "robot_description" 1 1 () = some s ∧
      s.m_types[1]? = some tag ∧
      (tag = JointType.Continuous ↔
        (∀ ul, limitParam rosArm "robot_description" armContinuous "max_position" = some ul →
          ul ≥ FLT_MAX) ∧
        (∀ ll, limitParam rosArm "robot_description" armContinuous "min_position" = some ll →
          ll ≤ FLT_LOWEST)) ∧
      (tag ≠ JointType.Continuous → tag = JointType.Revolute) :=
  ⟨rfl, rfl, by decide, by decide, rfl, rfl,
    @SNS_IK_urdf_continuous_tag Ext.demo rosArm "base" "tip" "robot_description" 1 1 ()
      "<robot><link/></robot>" armTree 1 ⟨⟨"j2", KDL.JointType.RotAxis⟩⟩ armContinuous
      rfl rfl (by decide) (by decide) rfl rfl⟩

end sns_ik
